import Mathlib

/-!
Shallow embedding of the AccuRadio parser ingestion pipeline
(`src/services/parser.js`), its Mongoose entity models (`src/models/*.js`)
and the bulk-erase handler of `src/server.js`.

Modelling conventions:
* JavaScript values that may be `undefined`/`null` are `Option _`; the two
  are conflated (feed JSON uses absence and `null` interchangeably here).
* JS truthiness on string-valued fields (`if (!x)`) is `truthy`, which is
  false exactly on absence and on the empty string.
* Mongoose in-process validation (`required` on `String` paths, the
  `ad_type` enum) is modelled at each insert; `document.save()` rejecting
  is an error value that propagates, as the JS exception does.  Server-side
  index enforcement by the MongoDB server is external to the process (index
  builds are asynchronous and best-effort) and is not modelled; every insert
  in the pipeline is guarded by an explicit `findOne` beforehand.
* Mongoose strips `undefined`-valued keys from a query filter, so a
  `findOne` condition on an absent field matches every document; `fieldMatch`
  encodes this.
* The background image queue (`imageQueue`, `isProcessingImages`, the
  on-disk cache) is part of a `World` state record; the HTTP download and
  the filesystem are an oracle parameter.  The asynchronous
  `processImageQueue` trigger inside `queueImageDownload` is modelled by
  exposing the drain as a separate step on the same state.
* Errors carry the `World` at throw time: a JS exception does not roll back
  documents already saved.
-/

namespace Accu

/-- JS truthiness of an optional string field: `undefined`, `null` and the
empty string are falsy. -/
def truthy : Option String → Bool
  | none => false
  | some s => !(s == "")

/-- A feed-supplied id value: either a raw string or an object that may
carry a `$oid` member (`extractId` in `parser.js` inspects exactly these). -/
inductive IdVal where
  | str (s : String)
  | obj (oid : Option String)
deriving DecidableEq, Repr

/-- `extractId` (`parser.js` lines 163-168): falsy input gives `null`;
a (non-empty) string is returned as-is; an object yields its `$oid` member
when that is truthy; anything else gives `null`. -/
def extractId : Option IdVal → Option String
  | none => none
  | some (.str s) => if s == "" then none else some s
  | some (.obj none) => none
  | some (.obj (some s)) => if s == "" then none else some s

/-- Nested album sub-object of a feed record (fields read by
`processAlbum`). -/
structure AlbumData where
  _id : Option IdVal
  asin : Option String
  title : Option String
  label : Option String
  year : Option String
  cdcover : Option String
  buyalbum : Option String
  itunes : Option String
  itunes_id : Option Int
  created_by : Option String
  approved_by : Option String
  pending_id : Option String
  job : Option IdVal
deriving DecidableEq, Repr

/-- Nested artist sub-object of a feed record (fields read by
`processArtist`). -/
structure ArtistData where
  _id : Option IdVal
  artistdisplay : Option String
  artistcat : Option String
  created_by : Option String
  approved_by : Option String
  job : Option IdVal
  oldid : Option Int
deriving DecidableEq, Repr

/-- Nested composer sub-object of a feed record (fields read by
`processComposer`). -/
structure ComposerData where
  _id : Option IdVal
  display : Option String
  value : Option String
  cat : Option String
  created_by : Option String
  approved_by : Option String
  job : Option IdVal
  oldid : Option Int
deriving DecidableEq, Repr

/-- One element of the feed array: a track-shaped or ad-shaped record
(all fields read anywhere in `parser.js`). -/
structure Item where
  _id : Option IdVal
  id : Option IdVal
  track_artist : Option String
  title : Option String
  fn : Option String
  primary : Option String
  secondary : Option String
  holiday : Option Bool
  duration : Option Int
  unedited_duration : Option Int
  calculatedWeight : Option Int
  listfrom : Option String
  created_by : Option String
  approved_by : Option String
  job : Option IdVal
  oldid : Option Int
  ad_type : Option String
  ad_source : Option String
  fn_as : Option String
  fn_ar : Option String
  album : Option AlbumData
  artist : Option ArtistData
  composer : Option ComposerData
deriving DecidableEq, Repr

/-- A stored Album document (`models/Album.js`); `id` is the
server-assigned surrogate `_id`. -/
structure AlbumRow where
  id : Nat
  originalId : Option String
  asin : Option String
  title : Option String
  label : Option String
  year : Option String
  cdcover : Option String
  localImage : Option String
  buyalbum : Option String
  itunes : Option String
  itunes_id : Option Int
  created_by : Option String
  approved_by : Option String
  pending_id : Option String
  job : Option String
deriving DecidableEq, Repr

/-- A stored Artist document (`models/Artist.js`). -/
structure ArtistRow where
  id : Nat
  originalId : Option String
  artistdisplay : Option String
  artistcat : Option String
  created_by : Option String
  approved_by : Option String
  job : Option String
  oldid : Option Int
deriving DecidableEq, Repr

/-- A stored Composer document (`models/Composer.js`). -/
structure ComposerRow where
  id : Nat
  originalId : Option String
  display : Option String
  value : Option String
  cat : Option String
  created_by : Option String
  approved_by : Option String
  job : Option String
  oldid : Option Int
deriving DecidableEq, Repr

/-- A stored Track document (`models/Track.js`); `album`, `artist`,
`composer` are references to surrogate ids of the related rows. -/
structure TrackRow where
  id : Nat
  originalId : Option String
  track_artist : Option String
  title : Option String
  fn : Option String
  primary : Option String
  secondary : Option String
  holiday : Option Bool
  duration : Option Int
  unedited_duration : Option Int
  calculatedWeight : Option Int
  listfrom : Option String
  created_by : Option String
  approved_by : Option String
  job : Option String
  oldid : Option Int
  album : Option Nat
  artist : Option Nat
  composer : Option Nat
deriving DecidableEq, Repr

/-- A stored Ad document (`models/Ad.js`); `track_artist` and `title`
receive the schema defaults when absent from the record. -/
structure AdRow where
  id : Nat
  track_artist : String
  title : String
  ad_type : Option String
  ad_source : Option String
  fn : Option String
  fn_as : Option String
  fn_ar : Option String
deriving DecidableEq, Repr

/-- The five persistent collections plus the surrogate-id counter. -/
structure DB where
  tracks : List TrackRow
  albums : List AlbumRow
  artists : List ArtistRow
  composers : List ComposerRow
  ads : List AdRow
  nextId : Nat
deriving DecidableEq, Repr

def emptyDB : DB := ⟨[], [], [], [], [], 0⟩

/-- One pending entry of the background image queue
(`imageQueue.push({ cdcover, albumId, localPath })`). -/
structure QItem where
  cdcover : String
  albumId : Option Nat
  localPath : String
deriving DecidableEq, Repr

/-- The full mutable state: database, image queue, the busy flag of the
background worker, and the set of file paths present on disk in the image
cache directory. -/
structure World where
  db : DB
  imageQueue : List QItem
  isProcessingImages : Bool
  disk : List String
deriving DecidableEq, Repr

/-- Run statistics accumulated by `parseAndStore`.  (The source also
declares album/artist/composer counters inside `stats`, but the loop never
increments them; only the three fields below are ever updated.) -/
structure Stats where
  tracksNew : Nat
  tracksExisting : Nat
  ads : Nat
deriving DecidableEq, Repr

def stats0 : Stats := ⟨0, 0, 0⟩

/-! ## Image cache paths and the background queue -/

/-- The image cache directory constant (`IMGS_DIR`). -/
def IMGS_DIR : String := "imgs"

/-- Split a character list at the first occurrence of `pat`: the part
before it and the part after it, or `none` when `pat` does not occur. -/
def splitFirstAux (pat : List Char) : List Char → Option (List Char × List Char)
  | [] => none
  | c :: rest =>
    if pat.isPrefixOf (c :: rest) then some ([], (c :: rest).drop pat.length)
    else
      match splitFirstAux pat rest with
      | none => none
      | some (before, after) => some (c :: before, after)

/-- JS `String.replace` with a string pattern: replaces the first
occurrence only (the string is returned unchanged when the pattern does
not occur). -/
def replaceFirst (s pat rep : String) : String :=
  match splitFirstAux pat.data s.data with
  | none => s
  | some (before, after) => ⟨before ++ rep.data ++ after⟩

/-- `getLocalFilename` (`parser.js` lines 21-24): falsy input gives `null`;
otherwise drop the first `/covers/` and turn every remaining `/` into `_`
(JS `.replace(re-slash-global, underscore)` is a per-character map). -/
def getLocalFilename (cdcover : Option String) : Option String :=
  if !truthy cdcover then none
  else some ⟨((replaceFirst (cdcover.getD "") "/covers/" "").data.map
    (fun ch => if ch = '/' then '_' else ch))⟩

/-- `getLocalPath` (`parser.js` lines 29-32): join the cache directory with
the local filename. -/
def getLocalPath (cdcover : Option String) : Option String :=
  match getLocalFilename cdcover with
  | none => none
  | some filename => some (IMGS_DIR ++ "/" ++ filename)

/-- `queueImageDownload` (`parser.js` lines 37-59): return unchanged when
the cover reference is falsy, when its derived local file already exists on
disk, or when an entry for the same `cdcover` is already pending; otherwise
append a new pending entry.  (The source then fires `processImageQueue()`
asynchronously when the worker is idle; that drain is the separate
`processImageQueue` step below on the same state.) -/
def queueImageDownload (cdcover : Option String) (albumId : Option Nat)
    (w : World) : World :=
  if !truthy cdcover then w
  else if w.disk.contains ((getLocalPath cdcover).getD "") then w
  else if w.imageQueue.any (fun item => item.cdcover == cdcover.getD "") then w
  else { w with imageQueue := w.imageQueue ++
          [⟨cdcover.getD "", albumId, (getLocalPath cdcover).getD ""⟩] }

/-- Outcome of one HTTP image download: success with a byte count, or any
axios failure (non-2xx, timeout, network error). -/
inductive DlResult where
  | ok (len : Nat)
  | fail
deriving DecidableEq, Repr

/-- `Album.findByIdAndUpdate(albumId, { localImage: localPath })`:
set the cached-image path on the album with the given surrogate id. -/
def updateAlbumImage (albumId : Nat) (p : String) (db : DB) : DB :=
  { db with albums := db.albums.map (fun a =>
      if a.id == albumId then { a with localImage := some p } else a) }

/-- `downloadImageNow` (`parser.js` lines 85-148): skip falsy covers and
already-cached files; attempt the download (the network is the `oracle`);
an error or an empty body yields `null` with no state change; on success
write the file and, when an owning album id was supplied, back-fill that
album's `localImage`. -/
def downloadImageNow (oracle : String → DlResult) (cdcover : String)
    (albumId : Option Nat) (localPath : String) (w : World) :
    Option String × World :=
  if cdcover == "" then (none, w)
  else if w.disk.contains localPath then (some localPath, w)
  else
    match oracle cdcover with
    | .fail => (none, w)
    | .ok len =>
      if len == 0 then (none, w)
      else
        let w1 := { w with disk := localPath :: w.disk }
        match albumId with
        | some aid =>
            (some localPath, { w1 with db := updateAlbumImage aid localPath w1.db })
        | none => (some localPath, w1)

/-- The drain loop body of `processImageQueue`: repeatedly shift the oldest
pending entry and download it, until the queue is empty.  Returns the list
of entries that were popped and processed (each exactly once), which is how
download attempts are counted. -/
def drainList (oracle : String → DlResult) :
    List QItem → World → List QItem × World
  | [], w => ([], w)
  | item :: rest, w =>
    let step := downloadImageNow oracle item.cdcover item.albumId item.localPath
      { w with imageQueue := rest }
    let tail := drainList oracle rest step.2
    (item :: tail.1, tail.2)

/-- `processImageQueue` (`parser.js` lines 64-80): return immediately when
already draining or when nothing is pending; otherwise set the busy flag,
drain the queue to empty, and clear the flag. -/
def processImageQueue (oracle : String → DlResult) (w : World) :
    List QItem × World :=
  if w.isProcessingImages || w.imageQueue.isEmpty then ([], w)
  else
    let r := drainList oracle w.imageQueue
      { w with imageQueue := [], isProcessingImages := true }
    (r.1, { r.2 with isProcessingImages := false })

/-! ## Per-entity processing -/

/-- `Album.findOne({ originalId })` over the stored collection. -/
def findAlbumByOriginalId (albums : List AlbumRow) (oid : String) : Option AlbumRow :=
  albums.find? (fun a => a.originalId == some oid)

/-- The Album document built by the create branch of `processAlbum`:
every field copied from the record, `localImage` explicitly `null`. -/
def newAlbumRow (ad : AlbumData) (originalId : String) (nid : Nat) : AlbumRow :=
  { id := nid, originalId := some originalId,
    asin := ad.asin, title := ad.title, label := ad.label,
    year := ad.year, cdcover := ad.cdcover, localImage := none,
    buyalbum := ad.buyalbum, itunes := ad.itunes,
    itunes_id := ad.itunes_id, created_by := ad.created_by,
    approved_by := ad.approved_by, pending_id := ad.pending_id,
    job := extractId ad.job }

/-- `processAlbum` (`parser.js` lines 193-242): falsy sub-object or no
extractable id or falsy title give `null`; an existing row (by external id)
is returned, enqueueing its cover when the record supplies one and the row
still lacks a cached image; otherwise a new row is inserted with
`localImage: null` and its cover enqueued.  The Album schema's only
`required` path is `title`, which the guard has already established, so the
insert cannot fail validation. -/
def processAlbum (albumData : Option AlbumData) (w : World) :
    Option AlbumRow × World :=
  match albumData with
  | none => (none, w)
  | some ad =>
    match extractId ad._id with
    | none => (none, w)
    | some originalId =>
      if !truthy ad.title then (none, w)
      else
        match findAlbumByOriginalId w.db.albums originalId with
        | some album =>
          let w1 := if truthy ad.cdcover && !truthy album.localImage
                    then queueImageDownload ad.cdcover (some album.id) w
                    else w
          (some album, w1)
        | none =>
          let album := newAlbumRow ad originalId w.db.nextId
          let w1 := { w with db := { w.db with
              albums := w.db.albums ++ [album], nextId := w.db.nextId + 1 } }
          let w2 := if truthy ad.cdcover
                    then queueImageDownload ad.cdcover (some album.id) w1
                    else w1
          (some album, w2)

/-- A computation that may throw: errors carry the state at throw time
(a JS exception does not undo documents already saved). -/
abbrev PRes (α : Type) := Except (String × World) (α × World)

/-- The Artist document built by the create branch of `processArtist`. -/
def newArtistRow (ad : ArtistData) (originalId : String) (nid : Nat) : ArtistRow :=
  { id := nid, originalId := some originalId,
    artistdisplay := ad.artistdisplay, artistcat := ad.artistcat,
    created_by := ad.created_by, approved_by := ad.approved_by,
    job := extractId ad.job, oldid := ad.oldid }

/-- `processArtist` (`parser.js` lines 247-271): falsy sub-object or no
extractable id give `null`; an existing row (by external id) is returned;
otherwise a new row is saved — the Artist schema requires `artistdisplay`,
so a record lacking it makes `save()` reject. -/
def processArtist (artistData : Option ArtistData) (w : World) :
    PRes (Option ArtistRow) :=
  match artistData with
  | none => .ok (none, w)
  | some ad =>
    match extractId ad._id with
    | none => .ok (none, w)
    | some originalId =>
      match w.db.artists.find? (fun a => a.originalId == some originalId) with
      | some artist => .ok (some artist, w)
      | none =>
        if !truthy ad.artistdisplay then
          .error ("Artist validation failed: artistdisplay is required", w)
        else
          let artist := newArtistRow ad originalId w.db.nextId
          .ok (some artist, { w with db := { w.db with
              artists := w.db.artists ++ [artist], nextId := w.db.nextId + 1 } })

/-- The Composer document built by the create branch of `processComposer`. -/
def newComposerRow (cd : ComposerData) (originalId : String) (nid : Nat) : ComposerRow :=
  { id := nid, originalId := some originalId,
    display := cd.display, value := cd.value, cat := cd.cat,
    created_by := cd.created_by, approved_by := cd.approved_by,
    job := extractId cd.job, oldid := cd.oldid }

/-- `processComposer` (`parser.js` lines 276-301): falsy sub-object or no
extractable id give `null`; an existing row (by external id) is returned;
otherwise a new row is saved — the Composer schema has no `required` path,
so the save cannot fail validation. -/
def processComposer (composerData : Option ComposerData) (w : World) :
    Option ComposerRow × World :=
  match composerData with
  | none => (none, w)
  | some cd =>
    match extractId cd._id with
    | none => (none, w)
    | some originalId =>
      match w.db.composers.find? (fun c => c.originalId == some originalId) with
      | some composer => (some composer, w)
      | none =>
        let composer := newComposerRow cd originalId w.db.nextId
        (some composer, { w with db := { w.db with
            composers := w.db.composers ++ [composer], nextId := w.db.nextId + 1 } })

/-! ## Track processing -/

/-- `extractId(trackData._id) || extractId(trackData.id)` of `processTrack`. -/
def trackOriginalId (item : Item) : Option String :=
  (extractId item._id).orElse (fun _ => extractId item.id)

/-- One condition of a Mongoose query filter: an `undefined` value is
stripped from the filter, so it matches every document; a present value
requires the stored field to equal it exactly. -/
def fieldMatch (q v : Option String) : Bool :=
  match q with
  | none => true
  | some s => v == some s

/-- The lookup `Track.findOne({ originalId })`, performed only when the
record yields a truthy id. -/
def findTrackById (tracks : List TrackRow) (item : Item) : Option TrackRow :=
  match trackOriginalId item with
  | some oid => tracks.find? (fun t => t.originalId == some oid)
  | none => none

/-- The content-fingerprint lookup
`Track.findOne({ track_artist, title, fn })`. -/
def findTrackByContent (tracks : List TrackRow) (item : Item) : Option TrackRow :=
  tracks.find? (fun t =>
    fieldMatch item.track_artist t.track_artist &&
    fieldMatch item.title t.title &&
    fieldMatch item.fn t.fn)

structure TrackResult where
  track : TrackRow
  isNew : Bool
deriving DecidableEq, Repr

/-- The row `processTrack` constructs when both lookups miss. -/
def newTrackRow (item : Item) (album : Option AlbumRow)
    (artist : Option ArtistRow) (composer : Option ComposerRow)
    (nextId : Nat) : TrackRow :=
  { id := nextId, originalId := trackOriginalId item,
    track_artist := item.track_artist, title := item.title, fn := item.fn,
    primary := item.primary, secondary := item.secondary,
    holiday := item.holiday, duration := item.duration,
    unedited_duration := item.unedited_duration,
    calculatedWeight := item.calculatedWeight, listfrom := item.listfrom,
    created_by := item.created_by, approved_by := item.approved_by,
    job := extractId item.job, oldid := item.oldid,
    album := album.map (fun a => a.id), artist := artist.map (fun a => a.id),
    composer := composer.map (fun c => c.id) }

/-- `processTrack` (`parser.js` lines 306-355): when the record yields an
external id and a row with that id exists, return it as existing; otherwise
a row matching the (track_artist, title, fn) content fingerprint is
returned as existing; only when both lookups miss is a new row saved — the
Track schema requires `track_artist` and `title`, so a record lacking
either makes `save()` reject. -/
def processTrack (item : Item) (album : Option AlbumRow)
    (artist : Option ArtistRow) (composer : Option ComposerRow)
    (w : World) : PRes TrackResult :=
  match findTrackById w.db.tracks item with
  | some existingTrack => .ok (⟨existingTrack, false⟩, w)
  | none =>
    match findTrackByContent w.db.tracks item with
    | some existingByContent => .ok (⟨existingByContent, false⟩, w)
    | none =>
      if !truthy item.track_artist || !truthy item.title then
        .error ("Track validation failed: track_artist and title are required", w)
      else
        let track := newTrackRow item album artist composer w.db.nextId
        .ok (⟨track, true⟩, { w with db := { w.db with
            tracks := w.db.tracks ++ [track], nextId := w.db.nextId + 1 } })

/-! ## Ads and the ingestion loop -/

/-- `isAd` (`parser.js` lines 186-188): strict equality against the two
sentinel values. -/
def isAd (item : Item) : Bool :=
  item.track_artist == some "runspot" && item.title == some "sweeper"

/-- The Ad schema's `ad_type` enum validator: absent passes, otherwise the
value must be `paid` or `unpaid`. -/
def adTypeValid (t : Option String) : Bool :=
  t == none || t == some "paid" || t == some "unpaid"

/-- The Ad document built by `processAd` (schema defaults fill
`track_artist` and `title` when absent). -/
def newAdRow (adData : Item) (nid : Nat) : AdRow :=
  { id := nid,
    track_artist := adData.track_artist.getD "runspot",
    title := adData.title.getD "sweeper",
    ad_type := adData.ad_type, ad_source := adData.ad_source,
    fn := adData.fn, fn_as := adData.fn_as, fn_ar := adData.fn_ar }

/-- `processAd` (`parser.js` lines 360-373): build a new Ad document (the
schema defaults fill `track_artist`/`title` when absent) and save it — no
lookup, no dedup; the enum validator on `ad_type` can make `save()`
reject. -/
def processAd (adData : Item) (w : World) : PRes AdRow :=
  if !adTypeValid adData.ad_type then
    .error ("Ad validation failed: ad_type is not in enum", w)
  else
    let ad := newAdRow adData w.db.nextId
    .ok (ad, { w with db := { w.db with
        ads := w.db.ads ++ [ad], nextId := w.db.nextId + 1 } })

/-- The loop body of `parseAndStore` (`parser.js` lines 397-421) for one
feed element: an ad-shaped record is saved and counted; otherwise the
nested album, artist and composer are processed in that order, then the
track, and the new/existing counter is bumped.  There is no try/catch here:
any rejection propagates out of the loop. -/
def processItem (item : Item) (st : Stats) (w : World) : PRes Stats :=
  if isAd item then
    match processAd item w with
    | .error e => .error e
    | .ok (_, w1) => .ok ({ st with ads := st.ads + 1 }, w1)
  else
    let ra := processAlbum item.album w
    match processArtist item.artist ra.2 with
    | .error e => .error e
    | .ok (artist, w2) =>
      let rc := processComposer item.composer w2
      match processTrack item ra.1 artist rc.1 rc.2 with
      | .error e => .error e
      | .ok (res, w4) =>
        if res.isNew then .ok ({ st with tracksNew := st.tracksNew + 1 }, w4)
        else .ok ({ st with tracksExisting := st.tracksExisting + 1 }, w4)

/-- The `for` loop of `parseAndStore`, left to right over the feed array. -/
def processItems : List Item → Stats → World → PRes Stats
  | [], st, w => .ok (st, w)
  | item :: rest, st, w =>
    match processItem item st w with
    | .error e => .error e
    | .ok (st1, w1) => processItems rest st1 w1

/-- The decoded body of a successful feed fetch: a JSON array of records,
or any other JSON value. -/
inductive Payload where
  | arr (items : List Item)
  | nonArray

/-- `parseAndStore` (`parser.js` lines 378-429) after a successful fetch:
reject a non-array payload, else run the loop with zeroed statistics. -/
def parseAndStore (payload : Payload) (w : World) : PRes Stats :=
  match payload with
  | .nonArray => .error ("Expected array of items from URL", w)
  | .arr items => processItems items stats0 w

/-! ## The bulk-erase endpoint of `server.js` -/

/-- The counts returned by `getStats` (`server.js` lines 19-26): it counts
the Track, Album, Artist and Ad collections — and no other. -/
structure StatsCounts where
  tracks : Nat
  albums : Nat
  artists : Nat
  ads : Nat
deriving DecidableEq, Repr

def getStats (db : DB) : StatsCounts :=
  ⟨db.tracks.length, db.albums.length, db.artists.length, db.ads.length⟩

/-- The JSON body answered by `DELETE /all`. -/
structure DeleteAllResponse where
  success : Bool
  deleted : StatsCounts
deriving DecidableEq, Repr

/-- The `DELETE /all` handler (`server.js` lines 1289-1311): read the
counts via `getStats`, run `deleteMany({})` on all five collections, and
answer with the pre-erase counts it read. -/
def deleteAllHandler (db : DB) : DeleteAllResponse × DB :=
  let statsBefore := getStats db
  (⟨true, statsBefore⟩,
   { db with tracks := [], albums := [], artists := [], composers := [], ads := [] })

/-! ## Concrete scenario inputs (used by witnesses and counterexamples) -/

/-- A feed record with every field absent. -/
def blankItem : Item :=
  { _id := none, id := none, track_artist := none, title := none, fn := none,
    primary := none, secondary := none, holiday := none, duration := none,
    unedited_duration := none, calculatedWeight := none, listfrom := none,
    created_by := none, approved_by := none, job := none, oldid := none,
    ad_type := none, ad_source := none, fn_as := none, fn_ar := none,
    album := none, artist := none, composer := none }

/-- An album sub-object with every field absent. -/
def blankAlbumData : AlbumData :=
  { _id := none, asin := none, title := none, label := none, year := none,
    cdcover := none, buyalbum := none, itunes := none, itunes_id := none,
    created_by := none, approved_by := none, pending_id := none, job := none }

/-- An artist sub-object with every field absent. -/
def blankArtistData : ArtistData :=
  { _id := none, artistdisplay := none, artistcat := none,
    created_by := none, approved_by := none, job := none, oldid := none }

/-- A composer sub-object with every field absent. -/
def blankComposerData : ComposerData :=
  { _id := none, display := none, value := none, cat := none,
    created_by := none, approved_by := none, job := none, oldid := none }

/-- A fresh process state over an empty database. -/
def world0 : World := ⟨emptyDB, [], false, []⟩

/-- Sufficient condition for `processArtist` not to throw: the sub-object
is absent, yields no extractable id, or supplies a truthy display name. -/
def artistSaveOK : Option ArtistData → Bool
  | none => true
  | some rd => extractId rd._id == none || truthy rd.artistdisplay

/-- Across one processed record the Track collection is unchanged or got
one new row; when a row was added, its reference selected by `ref` is
`null`. -/
def tracksNullRef (w w' : World) (ref : TrackRow → Option Nat) : Prop :=
  w'.db.tracks = w.db.tracks ∨
  ∃ t, w'.db.tracks = w.db.tracks ++ [t] ∧ ref t = none

/-- A stored track used by concrete scenarios: external id `x1`,
fingerprint (`A`, `T`, `f`). -/
def cTrackRowX : TrackRow :=
  { id := 0, originalId := some "x1", track_artist := some "A",
    title := some "T", fn := some "f", primary := none, secondary := none,
    holiday := none, duration := none, unedited_duration := none,
    calculatedWeight := none, listfrom := none, created_by := none,
    approved_by := none, job := none, oldid := none, album := none,
    artist := none, composer := none }

/-- A store holding exactly `cTrackRowX`. -/
def cWorldX : World := ⟨⟨[cTrackRowX], [], [], [], [], 1⟩, [], false, []⟩

/-- A record carrying external id `x1` but a different fingerprint. -/
def cItemById : Item :=
  { blankItem with
    _id := some (.str "x1"), track_artist := some "A",
    title := some "T2", fn := some "g" }

/-- A record with no external id but the fingerprint of `cTrackRowX`. -/
def cItemByContent : Item :=
  { blankItem with
    track_artist := some "A", title := some "T", fn := some "f" }

/-- An album sub-object whose `_id` is an object without `$oid` (no
extractable external id) though every other ingredient is present. -/
def cAlbumNoId : AlbumData :=
  { blankAlbumData with _id := some (.obj none), title := some "Has Title" }

/-- An artist sub-object with no `_id` at all but a display name. -/
def cArtistNoId : ArtistData :=
  { blankArtistData with artistdisplay := some "X" }

/-- A track record whose three sub-objects all lack extractable ids. -/
def cItemNoIds : Item :=
  { blankItem with
    track_artist := some "Z", title := some "ZT", fn := some "zf",
    album := some cAlbumNoId, artist := some cArtistNoId,
    composer := some blankComposerData }

/-- The row inserted for `cItemNoIds` from an empty store. -/
def cTrackRow9 : TrackRow := newTrackRow cItemNoIds none none none 0

/-- The state after ingesting `cItemNoIds` from an empty store. -/
def cW9 : World := ⟨⟨[cTrackRow9], [], [], [], [], 1⟩, [], false, []⟩

/-- An album sub-object with an extractable id but no title. -/
def cAlbumNoTitle : AlbumData :=
  { blankAlbumData with _id := some (.str "a9") }

/-- A track record whose album sub-object lacks a title. -/
def cItemNoTitle : Item :=
  { blankItem with
    track_artist := some "C", title := some "T3", fn := some "f3",
    album := some cAlbumNoTitle }

/-- A stored Composer row used to exhibit the erase response shape. -/
def cComposerRow : ComposerRow :=
  { id := 5, originalId := some "c1", display := some "D", value := none,
    cat := none, created_by := none, approved_by := none, job := none,
    oldid := none }

/-- A database whose only row is one Composer. -/
def cDBwithComp : DB := ⟨[], [], [], [cComposerRow], [], 6⟩

/-- An ad-shaped record whose ad kind is outside the schema enum. -/
def cAdBanner : Item :=
  { blankItem with
    track_artist := some "runspot", title := some "sweeper",
    ad_type := some "banner" }

/-- A well-formed paid ad record. -/
def cAdPaid : Item :=
  { blankItem with
    track_artist := some "runspot", title := some "sweeper",
    ad_type := some "paid", ad_source := some "adswizz" }

/-- A track record whose artist sub-object has an extractable id but no
display name: its `save()` rejects. -/
def cItemBadArtist : Item :=
  { blankItem with
    track_artist := some "B", title := some "T2", fn := some "f2",
    artist := some { blankArtistData with _id := some (.str "r9") } }

/-- The only mutation the Fetch Queue worker may apply to an Album row:
none, or setting the cached-image path to some written file. -/
def albumImageOnlyUpd (a b : AlbumRow) : Prop :=
  b = a ∨ ∃ p, b = { a with localImage := some p }

/-- An album sub-object with id `a1`, a title and no cover reference. -/
def cAlbumFull : AlbumData :=
  { blankAlbumData with _id := some (.str "a1"), title := some "Alb" }

/-- A well-formed track record with a storable album sub-object. -/
def cItemFull : Item :=
  { blankItem with
    track_artist := some "A", title := some "T", fn := some "f1",
    album := some cAlbumFull }

/-- The Album row created for `cItemFull` from an empty store. -/
def cAlbumRowFull : AlbumRow := newAlbumRow cAlbumFull "a1" 0

/-- The Track row created for `cItemFull` from an empty store. -/
def cTrackRowFull : TrackRow :=
  newTrackRow cItemFull (some cAlbumRowFull) none none 1

/-- The state after ingesting `cItemFull` from an empty store. -/
def cWFull : World :=
  ⟨⟨[cTrackRowFull], [cAlbumRowFull], [], [], [], 2⟩, [], false, []⟩

/-- The content-fingerprint query of record `q` evaluated against the
stored row of record `r` (a stored row copies its record's three
fields). -/
def contentHit (q r : Item) : Bool :=
  fieldMatch q.track_artist r.track_artist &&
  fieldMatch q.title r.title && fieldMatch q.fn r.fn

/-- Both records carry the same extractable external id. -/
def idClash (a b : Item) : Bool :=
  match trackOriginalId a, trackOriginalId b with
  | some x, some y => x == y
  | _, _ => false

/-- Two feed records with distinct identities: no shared external id and
neither one's fingerprint query matches the other's stored row. -/
def distinctRecords (a b : Item) : Prop :=
  idClash a b = false ∧ contentHit a b = false ∧ contentHit b a = false

instance (a b : Item) : Decidable (distinctRecords a b) :=
  inferInstanceAs (Decidable (idClash a b = false ∧
    contentHit a b = false ∧ contentHit b a = false))

/-- A track record the pipeline ingests without throwing: not ad-shaped,
its required Track fields truthy, and its artist sub-object saveable. -/
def recordOK (item : Item) : Bool :=
  !isAd item && truthy item.track_artist && truthy item.title &&
  artistSaveOK item.artist

/-- After a run that processed `item`, every lookup the pipeline would
issue for it hits: its track by external id (when it has one) or by
fingerprint (when it has none), and each storable sub-object by external
id. -/
def storedFacts (db : DB) (item : Item) : Prop :=
  (∀ oid, trackOriginalId item = some oid →
    (db.tracks.find? (fun t => t.originalId == some oid)).isSome) ∧
  (trackOriginalId item = none →
    (findTrackByContent db.tracks item).isSome) ∧
  (∀ ad oid, item.album = some ad → extractId ad._id = some oid →
    truthy ad.title = true → (findAlbumByOriginalId db.albums oid).isSome) ∧
  (∀ rd oid, item.artist = some rd → extractId rd._id = some oid →
    (db.artists.find? (fun a => a.originalId == some oid)).isSome) ∧
  (∀ cd oid, item.composer = some cd → extractId cd._id = some oid →
    (db.composers.find? (fun c => c.originalId == some oid)).isSome)

/-- Every stored track row carries the identity of some already-processed
record. -/
def tracksFrom (db : DB) (processed : List Item) : Prop :=
  ∀ t ∈ db.tracks, ∃ r ∈ processed, t.originalId = trackOriginalId r ∧
    t.track_artist = r.track_artist ∧ t.title = r.title ∧ t.fn = r.fn

/-- The four deduplicated collections only grow. -/
def dbGrows (db db' : DB) : Prop :=
  (∃ s, db'.tracks = db.tracks ++ s) ∧ (∃ s, db'.albums = db.albums ++ s) ∧
  (∃ s, db'.artists = db.artists ++ s) ∧
  (∃ s, db'.composers = db.composers ++ s)

/-- A second well-formed track record, distinct from `cItemFull`. -/
def cItemX2 : Item :=
  { blankItem with
    _id := some (.str "x2"), track_artist := some "B2", title := some "U",
    fn := some "g1" }

/-- A state whose asset cache already holds the derived file for the
cover reference `/covers/x/y.jpg`. -/
def cWDisk : World := ⟨emptyDB, [], false, ["imgs/x_y.jpg"]⟩

/-! ## Queue lemmas -/

/-- `queueImageDownload` either returns the state unchanged or appends
exactly one pending entry. -/
theorem queueImageDownload_cases (cdc : Option String) (a : Option Nat)
    (w : World) :
    queueImageDownload cdc a w = w ∨
    queueImageDownload cdc a w =
      { w with imageQueue := w.imageQueue ++
          [⟨cdc.getD "", a, (getLocalPath cdc).getD ""⟩] } := by
  unfold queueImageDownload
  split
  · exact Or.inl rfl
  · split
    · exact Or.inl rfl
    · split
      · exact Or.inl rfl
      · exact Or.inr rfl

/-- Enqueueing touches only the pending queue: database, disk and the
worker flag are untouched. -/
theorem queueImageDownload_frame (cdc : Option String) (a : Option Nat)
    (w : World) :
    (queueImageDownload cdc a w).db = w.db ∧
    (queueImageDownload cdc a w).disk = w.disk ∧
    (queueImageDownload cdc a w).isProcessingImages = w.isProcessingImages := by
  rcases queueImageDownload_cases cdc a w with h | h <;> rw [h] <;> exact ⟨rfl, rfl, rfl⟩

/-- The drain loop pops every pending entry exactly once, in order. -/
theorem drainList_fst (oracle : String → DlResult) (items : List QItem)
    (w : World) : (drainList oracle items w).1 = items := by
  induction items generalizing w with
  | nil => rfl
  | cons i rest ih => simp only [drainList, ih]

/-- When the worker is idle, one run of `processImageQueue` attempts each
currently pending entry exactly once. -/
theorem processImageQueue_fst (oracle : String → DlResult) (w : World)
    (h : w.isProcessingImages = false) :
    (processImageQueue oracle w).1 = w.imageQueue := by
  unfold processImageQueue
  rw [h]
  simp only [Bool.false_or]
  split
  · next hq => simpa using (List.isEmpty_iff.mp hq).symm
  · next hq => simp only [drainList_fst]

/-- C4 — Fetch Queue at-most-once admission.  `queueImageDownload` is a
no-op when the cover reference is falsy, when the derived local file is
already on disk, or when an entry for the same reference is already
pending, and appends exactly one entry otherwise; consequently enqueueing
the same reference twice starting from a state with no pending entry for
it leaves exactly one pending entry, and an idle-worker drain attempts it
exactly once. -/
theorem C4_fetch_queue_at_most_once (cdc : Option String)
    (a a1 a2 : Option Nat) (c : String) (w : World)
    (oracle : String → DlResult) :
    (truthy cdc = false → queueImageDownload cdc a w = w) ∧
    (w.disk.contains ((getLocalPath cdc).getD "") = true →
      queueImageDownload cdc a w = w) ∧
    (w.imageQueue.any (fun i => i.cdcover == cdc.getD "") = true →
      queueImageDownload cdc a w = w) ∧
    (truthy cdc = true →
     w.disk.contains ((getLocalPath cdc).getD "") = false →
     w.imageQueue.any (fun i => i.cdcover == cdc.getD "") = false →
      queueImageDownload cdc a w =
        { w with imageQueue := w.imageQueue ++
            [⟨cdc.getD "", a, (getLocalPath cdc).getD ""⟩] }) ∧
    (¬(c = "") →
     w.disk.contains ((getLocalPath (some c)).getD "") = false →
     w.imageQueue.countP (fun i => i.cdcover == c) = 0 →
     w.isProcessingImages = false →
      (queueImageDownload (some c) a2
        (queueImageDownload (some c) a1 w)).imageQueue.countP
          (fun i => i.cdcover == c) = 1 ∧
      ((processImageQueue oracle
          (queueImageDownload (some c) a2
            (queueImageDownload (some c) a1 w))).1.countP
          (fun i => i.cdcover == c)) = 1) := by
  refine ⟨?_, ?_, ?_, ?_, ?_⟩
  · intro h
    unfold queueImageDownload
    rw [h]
    rfl
  · intro h
    unfold queueImageDownload
    rw [h]
    split <;> rfl
  · intro h
    unfold queueImageDownload
    rw [h]
    split
    · rfl
    · split <;> rfl
  · intro h1 h2 h3
    unfold queueImageDownload
    rw [if_neg (by simp [h1]), if_neg (by simpa using h2),
      if_neg (by rw [h3]; simp)]
  · intro hc hdisk hcount hflag
    have htr : truthy (some c) = true := by
      simp [truthy, hc]
    have hany : (w.imageQueue.any fun i => i.cdcover == c) = false := by
      rw [List.any_eq_false]
      intro i hi
      exact List.countP_eq_zero.mp hcount i hi
    have hstep1 : queueImageDownload (some c) a1 w =
        { w with imageQueue := w.imageQueue ++
            [⟨c, a1, (getLocalPath (some c)).getD ""⟩] } := by
      unfold queueImageDownload
      rw [if_neg (by simp [htr]), if_neg (by simpa using hdisk),
        if_neg (by simpa using hany)]
      rfl
    have hcount1 : (w.imageQueue ++
          [(⟨c, a1, (getLocalPath (some c)).getD ""⟩ : QItem)]).countP
          (fun i => i.cdcover == c) = 1 := by
      rw [List.countP_append, hcount]
      simp [List.countP_cons]
    have hstep2 : queueImageDownload (some c) a2
        (queueImageDownload (some c) a1 w) =
        queueImageDownload (some c) a1 w := by
      rw [hstep1]
      unfold queueImageDownload
      rw [if_neg (by simp [htr]), if_neg (by simpa using hdisk),
        if_pos (by simp [List.any_append])]
    have hflag2 : (queueImageDownload (some c) a2
        (queueImageDownload (some c) a1 w)).isProcessingImages = false := by
      rw [(queueImageDownload_frame _ _ _).2.2,
        (queueImageDownload_frame _ _ _).2.2, hflag]
    constructor
    · rw [hstep2, hstep1]
      exact hcount1
    · rw [processImageQueue_fst _ _ hflag2, hstep2, hstep1]
      exact hcount1

/-- C10 — enqueueing an already-cached asset is a complete no-op, and
enqueueing never touches any database row (in particular it never
back-fills an album's cached-image pointer). -/
theorem C10_cached_asset_enqueue_noop (cdc : Option String)
    (a : Option Nat) (w : World) :
    (w.disk.contains ((getLocalPath cdc).getD "") = true →
      queueImageDownload cdc a w = w) ∧
    (queueImageDownload cdc a w).db = w.db := by
  constructor
  · intro h
    unfold queueImageDownload
    rw [h]
    split <;> rfl
  · exact (queueImageDownload_frame cdc a w).1

/-! ## Branch lemmas for the per-entity process functions -/

theorem processAlbum_noId (ad : AlbumData) (w : World)
    (h : extractId ad._id = none) : processAlbum (some ad) w = (none, w) := by
  simp only [processAlbum, h]

theorem processAlbum_noTitle (ad : AlbumData) (w : World)
    (h : truthy ad.title = false) : processAlbum (some ad) w = (none, w) := by
  simp only [processAlbum]
  cases hid : extractId ad._id with
  | none => rfl
  | some oid => simp [h]

theorem processAlbum_found (ad : AlbumData) (w : World) (oid : String)
    (row : AlbumRow)
    (hid : extractId ad._id = some oid) (ht : truthy ad.title = true)
    (hfind : findAlbumByOriginalId w.db.albums oid = some row) :
    processAlbum (some ad) w = (some row,
      if truthy ad.cdcover && !truthy row.localImage
      then queueImageDownload ad.cdcover (some row.id) w else w) := by
  simp [processAlbum, hid, ht, hfind]

theorem processAlbum_create (ad : AlbumData) (w : World) (oid : String)
    (hid : extractId ad._id = some oid) (ht : truthy ad.title = true)
    (hfind : findAlbumByOriginalId w.db.albums oid = none) :
    (processAlbum (some ad) w).1 = some (newAlbumRow ad oid w.db.nextId) ∧
    (processAlbum (some ad) w).2.db = { w.db with
      albums := w.db.albums ++ [newAlbumRow ad oid w.db.nextId],
      nextId := w.db.nextId + 1 } := by
  simp only [processAlbum, hid, ht, hfind]
  refine ⟨by simp, ?_⟩
  simp only [Bool.not_true, Bool.false_eq_true, if_false]
  split
  · rw [(queueImageDownload_frame _ _ _).1]
  · rfl

/-- `processAlbum` never touches the Track, Artist, Composer or Ad
collections, and either leaves the Album collection alone or appends one
row whose cached-image path is `null`. -/
theorem processAlbum_db_cases (d : Option AlbumData) (w : World) :
    (processAlbum d w).2.db = w.db ∨
    ∃ row : AlbumRow, row.localImage = none ∧
      (processAlbum d w).2.db = { w.db with
        albums := w.db.albums ++ [row], nextId := w.db.nextId + 1 } := by
  cases d with
  | none => exact Or.inl rfl
  | some ad =>
    cases hid : extractId ad._id with
    | none => rw [processAlbum_noId ad w hid]; exact Or.inl rfl
    | some oid =>
      by_cases ht : truthy ad.title
      · cases hfind : findAlbumByOriginalId w.db.albums oid with
        | some row =>
          rw [processAlbum_found ad w oid row hid ht hfind]
          left
          dsimp only
          split
          · rw [(queueImageDownload_frame _ _ _).1]
          · rfl
        | none =>
          exact Or.inr ⟨newAlbumRow ad oid w.db.nextId, rfl,
            (processAlbum_create ad w oid hid ht hfind).2⟩
      · rw [processAlbum_noTitle ad w (by simpa using ht)]
        exact Or.inl rfl

theorem processArtist_noId (rd : ArtistData) (w : World)
    (h : extractId rd._id = none) :
    processArtist (some rd) w = .ok (none, w) := by
  simp only [processArtist, h]

theorem processArtist_found (rd : ArtistData) (w : World) (oid : String)
    (row : ArtistRow)
    (hid : extractId rd._id = some oid)
    (hfind : w.db.artists.find? (fun a => a.originalId == some oid) = some row) :
    processArtist (some rd) w = .ok (some row, w) := by
  simp only [processArtist, hid, hfind]

theorem processArtist_create (rd : ArtistData) (w : World) (oid : String)
    (hid : extractId rd._id = some oid)
    (hfind : w.db.artists.find? (fun a => a.originalId == some oid) = none)
    (hd : truthy rd.artistdisplay = true) :
    processArtist (some rd) w = .ok (some (newArtistRow rd oid w.db.nextId),
      { w with db := { w.db with
          artists := w.db.artists ++ [newArtistRow rd oid w.db.nextId],
          nextId := w.db.nextId + 1 } }) := by
  simp [processArtist, hid, hfind, hd]

theorem processArtist_invalid (rd : ArtistData) (w : World) (oid : String)
    (hid : extractId rd._id = some oid)
    (hfind : w.db.artists.find? (fun a => a.originalId == some oid) = none)
    (hd : truthy rd.artistdisplay = false) :
    processArtist (some rd) w =
      .error ("Artist validation failed: artistdisplay is required", w) := by
  simp [processArtist, hid, hfind, hd]

/-- When `processArtist` succeeds, the state is unchanged or exactly one
Artist row was appended; nothing else moves. -/
theorem processArtist_ok_cases (d : Option ArtistData) (w : World)
    (r : Option ArtistRow) (w' : World)
    (h : processArtist d w = .ok (r, w')) :
    w' = w ∨
    ∃ row : ArtistRow, r = some row ∧ w' = { w with db := { w.db with
      artists := w.db.artists ++ [row], nextId := w.db.nextId + 1 } } := by
  cases d with
  | none =>
    simp only [processArtist, Except.ok.injEq, Prod.mk.injEq] at h
    exact Or.inl h.2.symm
  | some rd =>
    cases hid : extractId rd._id with
    | none =>
      rw [processArtist_noId rd w hid] at h
      simp only [Except.ok.injEq, Prod.mk.injEq] at h
      exact Or.inl h.2.symm
    | some oid =>
      cases hfind : w.db.artists.find? (fun a => a.originalId == some oid) with
      | some row =>
        rw [processArtist_found rd w oid row hid hfind] at h
        simp only [Except.ok.injEq, Prod.mk.injEq] at h
        exact Or.inl h.2.symm
      | none =>
        by_cases hd : truthy rd.artistdisplay
        · rw [processArtist_create rd w oid hid hfind hd] at h
          simp only [Except.ok.injEq, Prod.mk.injEq] at h
          exact Or.inr ⟨newArtistRow rd oid w.db.nextId, h.1.symm, h.2.symm⟩
        · rw [processArtist_invalid rd w oid hid hfind (by simpa using hd)] at h
          exact absurd h (by simp)

theorem processComposer_noId (cd : ComposerData) (w : World)
    (h : extractId cd._id = none) :
    processComposer (some cd) w = (none, w) := by
  simp only [processComposer, h]

theorem processComposer_found (cd : ComposerData) (w : World) (oid : String)
    (row : ComposerRow)
    (hid : extractId cd._id = some oid)
    (hfind : w.db.composers.find? (fun c => c.originalId == some oid) = some row) :
    processComposer (some cd) w = (some row, w) := by
  simp only [processComposer, hid, hfind]

theorem processComposer_create (cd : ComposerData) (w : World) (oid : String)
    (hid : extractId cd._id = some oid)
    (hfind : w.db.composers.find? (fun c => c.originalId == some oid) = none) :
    processComposer (some cd) w = (some (newComposerRow cd oid w.db.nextId),
      { w with db := { w.db with
          composers := w.db.composers ++ [newComposerRow cd oid w.db.nextId],
          nextId := w.db.nextId + 1 } }) := by
  simp [processComposer, hid, hfind]

/-- `processComposer` leaves the state unchanged or appends exactly one
Composer row. -/
theorem processComposer_cases (d : Option ComposerData) (w : World) :
    (processComposer d w).2 = w ∨
    ∃ row : ComposerRow, (processComposer d w).1 = some row ∧
      (processComposer d w).2 = { w with db := { w.db with
        composers := w.db.composers ++ [row], nextId := w.db.nextId + 1 } } := by
  cases d with
  | none => exact Or.inl rfl
  | some cd =>
    cases hid : extractId cd._id with
    | none => rw [processComposer_noId cd w hid]; exact Or.inl rfl
    | some oid =>
      cases hfind : w.db.composers.find? (fun c => c.originalId == some oid) with
      | some row => rw [processComposer_found cd w oid row hid hfind]; exact Or.inl rfl
      | none =>
        rw [processComposer_create cd w oid hid hfind]
        exact Or.inr ⟨newComposerRow cd oid w.db.nextId, rfl, rfl⟩

theorem processTrack_hitId (item : Item) (album : Option AlbumRow)
    (artist : Option ArtistRow) (composer : Option ComposerRow) (w : World)
    (t : TrackRow) (h : findTrackById w.db.tracks item = some t) :
    processTrack item album artist composer w = .ok (⟨t, false⟩, w) := by
  simp only [processTrack, h]

theorem processTrack_hitContent (item : Item) (album : Option AlbumRow)
    (artist : Option ArtistRow) (composer : Option ComposerRow) (w : World)
    (t : TrackRow) (h1 : findTrackById w.db.tracks item = none)
    (h2 : findTrackByContent w.db.tracks item = some t) :
    processTrack item album artist composer w = .ok (⟨t, false⟩, w) := by
  simp only [processTrack, h1, h2]

theorem processTrack_insert (item : Item) (album : Option AlbumRow)
    (artist : Option ArtistRow) (composer : Option ComposerRow) (w : World)
    (h1 : findTrackById w.db.tracks item = none)
    (h2 : findTrackByContent w.db.tracks item = none)
    (ha : truthy item.track_artist = true) (ht : truthy item.title = true) :
    processTrack item album artist composer w =
      .ok (⟨newTrackRow item album artist composer w.db.nextId, true⟩,
        { w with db := { w.db with
            tracks := w.db.tracks ++
              [newTrackRow item album artist composer w.db.nextId],
            nextId := w.db.nextId + 1 } }) := by
  simp [processTrack, h1, h2, ha, ht]

theorem processTrack_invalid (item : Item) (album : Option AlbumRow)
    (artist : Option ArtistRow) (composer : Option ComposerRow) (w : World)
    (h1 : findTrackById w.db.tracks item = none)
    (h2 : findTrackByContent w.db.tracks item = none)
    (hv : (truthy item.track_artist && truthy item.title) = false) :
    processTrack item album artist composer w =
      .error ("Track validation failed: track_artist and title are required", w) := by
  simp only [processTrack, h1, h2]
  rw [if_pos]
  rcases Bool.and_eq_false_iff.mp hv with h | h <;> simp [h]

/-- When `processTrack` succeeds it either returns an existing row with the
state untouched, or appends exactly one new Track row. -/
theorem processTrack_ok_cases (item : Item) (album : Option AlbumRow)
    (artist : Option ArtistRow) (composer : Option ComposerRow) (w : World)
    (res : TrackResult) (w' : World)
    (h : processTrack item album artist composer w = .ok (res, w')) :
    (res.isNew = false ∧ w' = w) ∨
    (res.isNew = true ∧
      res.track = newTrackRow item album artist composer w.db.nextId ∧
      w' = { w with db := { w.db with
        tracks := w.db.tracks ++ [res.track], nextId := w.db.nextId + 1 } }) := by
  cases hid : findTrackById w.db.tracks item with
  | some t =>
    rw [processTrack_hitId item album artist composer w t hid] at h
    simp only [Except.ok.injEq, Prod.mk.injEq] at h
    exact Or.inl ⟨by rw [← h.1], h.2.symm⟩
  | none =>
    cases hct : findTrackByContent w.db.tracks item with
    | some t =>
      rw [processTrack_hitContent item album artist composer w t hid hct] at h
      simp only [Except.ok.injEq, Prod.mk.injEq] at h
      exact Or.inl ⟨by rw [← h.1], h.2.symm⟩
    | none =>
      by_cases hv : (truthy item.track_artist && truthy item.title) = true
      · rw [processTrack_insert item album artist composer w hid hct
          (Bool.and_eq_true_iff.mp hv).1 (Bool.and_eq_true_iff.mp hv).2] at h
        simp only [Except.ok.injEq, Prod.mk.injEq] at h
        refine Or.inr ⟨by rw [← h.1], by rw [← h.1], ?_⟩
        rw [← h.1, h.2.symm]
      · rw [processTrack_invalid item album artist composer w hid hct
          (by simpa using hv)] at h
        exact absurd h (by simp)

/-- `processAd` on success appends exactly one Ad row. -/
theorem processAd_ok (adData : Item) (w : World)
    (hv : adTypeValid adData.ad_type = true) :
    processAd adData w = .ok (newAdRow adData w.db.nextId,
      { w with db := { w.db with
          ads := w.db.ads ++ [newAdRow adData w.db.nextId],
          nextId := w.db.nextId + 1 } }) := by
  simp [processAd, hv]

theorem processAd_invalid (adData : Item) (w : World)
    (hv : adTypeValid adData.ad_type = false) :
    processAd adData w = .error ("Ad validation failed: ad_type is not in enum", w) := by
  simp [processAd, hv]

/-! ## Frame corollaries -/

theorem processAlbum_frame (d : Option AlbumData) (w : World) :
    (processAlbum d w).2.db.tracks = w.db.tracks ∧
    (processAlbum d w).2.db.artists = w.db.artists ∧
    (processAlbum d w).2.db.composers = w.db.composers ∧
    (processAlbum d w).2.db.ads = w.db.ads := by
  rcases processAlbum_db_cases d w with h | ⟨row, _, h⟩ <;> rw [h] <;>
    exact ⟨rfl, rfl, rfl, rfl⟩

theorem processArtist_ok_frame (d : Option ArtistData) (w : World)
    (r : Option ArtistRow) (w' : World)
    (h : processArtist d w = .ok (r, w')) :
    w'.db.tracks = w.db.tracks ∧ w'.db.albums = w.db.albums ∧
    w'.db.composers = w.db.composers ∧ w'.db.ads = w.db.ads := by
  rcases processArtist_ok_cases d w r w' h with h1 | ⟨row, _, h1⟩ <;> rw [h1] <;>
    exact ⟨rfl, rfl, rfl, rfl⟩

theorem processComposer_frame (d : Option ComposerData) (w : World) :
    (processComposer d w).2.db.tracks = w.db.tracks ∧
    (processComposer d w).2.db.albums = w.db.albums ∧
    (processComposer d w).2.db.artists = w.db.artists ∧
    (processComposer d w).2.db.ads = w.db.ads := by
  rcases processComposer_cases d w with h | ⟨row, _, h⟩ <;> rw [h] <;>
    exact ⟨rfl, rfl, rfl, rfl⟩

theorem processTrack_ok_frame (item : Item) (album : Option AlbumRow)
    (artist : Option ArtistRow) (composer : Option ComposerRow) (w : World)
    (res : TrackResult) (w' : World)
    (h : processTrack item album artist composer w = .ok (res, w')) :
    w'.db.albums = w.db.albums ∧ w'.db.artists = w.db.artists ∧
    w'.db.composers = w.db.composers ∧ w'.db.ads = w.db.ads := by
  rcases processTrack_ok_cases item album artist composer w res w' h with
    ⟨_, h1⟩ | ⟨_, _, h1⟩ <;> rw [h1] <;> exact ⟨rfl, rfl, rfl, rfl⟩

theorem processArtist_ok_of (d : Option ArtistData) (w : World)
    (hOK : artistSaveOK d = true) :
    ∃ r w', processArtist d w = .ok (r, w') := by
  cases d with
  | none => exact ⟨none, w, rfl⟩
  | some rd =>
    cases hid : extractId rd._id with
    | none => exact ⟨none, w, processArtist_noId rd w hid⟩
    | some oid =>
      cases hfind : w.db.artists.find? (fun a => a.originalId == some oid) with
      | some row => exact ⟨some row, w, processArtist_found rd w oid row hid hfind⟩
      | none =>
        have hd : truthy rd.artistdisplay = true := by
          simp only [artistSaveOK, hid] at hOK
          simpa using hOK
        exact ⟨_, _, processArtist_create rd w oid hid hfind hd⟩

/-- Splitting the non-ad branch of the loop body into its four stages. -/
theorem processItem_track_split (item : Item) (st : Stats) (w : World)
    (st' : Stats) (w' : World)
    (hAd : isAd item = false)
    (h : processItem item st w = .ok (st', w')) :
    ∃ (alb : Option AlbumRow) (wa : World) (art : Option ArtistRow)
      (w2 : World) (cmp : Option ComposerRow) (w3 : World)
      (res : TrackResult),
      processAlbum item.album w = (alb, wa) ∧
      processArtist item.artist wa = .ok (art, w2) ∧
      processComposer item.composer w2 = (cmp, w3) ∧
      processTrack item alb art cmp w3 = .ok (res, w') ∧
      ((res.isNew = true ∧ st' = { st with tracksNew := st.tracksNew + 1 }) ∨
       (res.isNew = false ∧
        st' = { st with tracksExisting := st.tracksExisting + 1 })) := by
  simp only [processItem, hAd, Bool.false_eq_true, if_false] at h
  rcases hart : processArtist item.artist (processAlbum item.album w).2 with
    ⟨e⟩ | ⟨art, w2⟩
  · rw [hart] at h
    simp at h
  · rw [hart] at h
    simp only at h
    rcases htrk : processTrack item (processAlbum item.album w).1 art
        (processComposer item.composer w2).1
        (processComposer item.composer w2).2 with ⟨e⟩ | ⟨res, w4⟩
    · rw [htrk] at h
      simp at h
    · rw [htrk] at h
      simp only at h
      by_cases hnew : res.isNew
      · rw [if_pos hnew] at h
        simp only [Except.ok.injEq, Prod.mk.injEq] at h
        refine ⟨(processAlbum item.album w).1, (processAlbum item.album w).2,
          art, w2, (processComposer item.composer w2).1,
          (processComposer item.composer w2).2, res, rfl, hart, rfl,
          h.2 ▸ htrk, Or.inl ⟨hnew, h.1.symm⟩⟩
      · rw [if_neg hnew] at h
        simp only [Except.ok.injEq, Prod.mk.injEq] at h
        refine ⟨(processAlbum item.album w).1, (processAlbum item.album w).2,
          art, w2, (processComposer item.composer w2).1,
          (processComposer item.composer w2).2, res, rfl, hart, rfl,
          h.2 ▸ htrk, Or.inr ⟨by simpa using hnew, h.1.symm⟩⟩

/-- The loop continues with the next record after a successful one. -/
theorem processItems_cons_ok (item : Item) (rest : List Item) (st st1 : Stats)
    (w w1 : World) (h : processItem item st w = .ok (st1, w1)) :
    processItems (item :: rest) st w = processItems rest st1 w1 := by
  simp only [processItems, h]

/-- The loop aborts as soon as one record throws. -/
theorem processItems_cons_error (item : Item) (rest : List Item) (st : Stats)
    (w : World) (e : String × World)
    (h : processItem item st w = .error e) :
    processItems (item :: rest) st w = .error e := by
  simp only [processItems, h]

/-! ## Claim C1: track identity precedence -/

/-- C1 — Track identity resolution deduplicates with external-id
precedence: when the record yields an external id and a stored row carries
it, `processTrack` returns that row as existing with the state untouched;
otherwise a row matching the (track_artist, title, fn) fingerprint is
returned as existing with the state untouched; only when both lookups miss
is a new Track row inserted.  In particular a record with a stored external
id and a record with no external id but a stored fingerprint both resolve
to the stored row and insert nothing. -/
theorem C1_track_identity_precedence (item : Item) (album : Option AlbumRow)
    (artist : Option ArtistRow) (composer : Option ComposerRow) (w : World) :
    (∀ t, findTrackById w.db.tracks item = some t →
      processTrack item album artist composer w = .ok (⟨t, false⟩, w)) ∧
    (findTrackById w.db.tracks item = none →
      ∀ t, findTrackByContent w.db.tracks item = some t →
        processTrack item album artist composer w = .ok (⟨t, false⟩, w)) ∧
    (findTrackById w.db.tracks item = none →
     findTrackByContent w.db.tracks item = none →
     truthy item.track_artist = true → truthy item.title = true →
      processTrack item album artist composer w =
        .ok (⟨newTrackRow item album artist composer w.db.nextId, true⟩,
          { w with db := { w.db with
              tracks := w.db.tracks ++
                [newTrackRow item album artist composer w.db.nextId],
              nextId := w.db.nextId + 1 } })) :=
  ⟨fun t h => processTrack_hitId item album artist composer w t h,
   fun h1 t h2 => processTrack_hitContent item album artist composer w t h1 h2,
   fun h1 h2 ha ht => processTrack_insert item album artist composer w h1 h2 ha ht⟩

/-- Witness for C1: over a store holding only `cTrackRowX`, a record with
the stored external id and a record with only the stored fingerprint both
resolve to `cTrackRowX`, leaving the store untouched. -/
theorem C1_track_identity_precedence_witness :
    processTrack cItemById none none none cWorldX =
      .ok (⟨cTrackRowX, false⟩, cWorldX) ∧
    processTrack cItemByContent none none none cWorldX =
      .ok (⟨cTrackRowX, false⟩, cWorldX) :=
  ⟨(C1_track_identity_precedence cItemById none none none cWorldX).1
      cTrackRowX (by decide),
   (C1_track_identity_precedence cItemByContent none none none cWorldX).2.1
      (by decide) cTrackRowX (by decide)⟩

/-! ## Claim C9: sub-objects without an extractable external id -/

/-- C9 — an Album, Artist or Composer sub-object with no extractable
external id is never stored: the process function returns `null` with the
state untouched even when all other fields are supplied, and a processed
record leaves the corresponding collection unchanged while its Track row
(when one is added) carries a `null` reference for that entity. -/
theorem C9_no_extractable_id_never_stored
    (ad : AlbumData) (rd : ArtistData) (cd : ComposerData)
    (item : Item) (st st' : Stats) (w w' : World) :
    (extractId ad._id = none → processAlbum (some ad) w = (none, w)) ∧
    (extractId rd._id = none → processArtist (some rd) w = .ok (none, w)) ∧
    (extractId cd._id = none → processComposer (some cd) w = (none, w)) ∧
    (isAd item = false → processItem item st w = .ok (st', w') →
      (item.album = some ad → extractId ad._id = none →
        w'.db.albums = w.db.albums ∧ tracksNullRef w w' (fun t => t.album)) ∧
      (item.artist = some rd → extractId rd._id = none →
        w'.db.artists = w.db.artists ∧ tracksNullRef w w' (fun t => t.artist)) ∧
      (item.composer = some cd → extractId cd._id = none →
        w'.db.composers = w.db.composers ∧
          tracksNullRef w w' (fun t => t.composer))) := by
  refine ⟨fun h => processAlbum_noId ad w h,
    fun h => processArtist_noId rd w h,
    fun h => processComposer_noId cd w h, ?_⟩
  intro hAd h
  obtain ⟨alb, wa, art, w2, cmp, w3, res, hAlb, hArt, hCmp, hTrk, -⟩ :=
    processItem_track_split item st w st' w' hAd h
  have hfA := processAlbum_frame item.album w
  rw [hAlb] at hfA
  have hfR := processArtist_ok_frame item.artist wa art w2 hArt
  have hfC := processComposer_frame item.composer w2
  rw [hCmp] at hfC
  have hfT := processTrack_ok_frame item alb art cmp w3 res w' hTrk
  refine ⟨?_, ?_, ?_⟩
  · intro hIA hid
    have h0 : processAlbum item.album w = (none, w) := by
      rw [hIA]
      exact processAlbum_noId ad w hid
    rw [h0] at hAlb
    injection hAlb with halb hwa
    subst halb
    subst hwa
    constructor
    · rw [hfT.1, hfC.2.1, hfR.2.1]
    · rcases processTrack_ok_cases item none art cmp w3 res w' hTrk with
        ⟨-, rfl⟩ | ⟨-, htr, hw⟩
      · exact Or.inl (by rw [hfC.1, hfR.1])
      · refine Or.inr ⟨res.track, ?_, by simp [htr, newTrackRow]⟩
        rw [hw]
        dsimp only
        rw [hfC.1, hfR.1]
  · intro hIR hid
    have h0 : processArtist item.artist wa = .ok (none, wa) := by
      rw [hIR]
      exact processArtist_noId rd wa hid
    have hcomb : (Except.ok ((none : Option ArtistRow), wa) :
        PRes (Option ArtistRow)) = .ok (art, w2) := h0.symm.trans hArt
    simp only [Except.ok.injEq, Prod.mk.injEq] at hcomb
    obtain ⟨hart0, hw2⟩ := hcomb
    subst hw2
    constructor
    · rw [hfT.2.1, hfC.2.2.1, hfA.2.1]
    · rcases processTrack_ok_cases item alb art cmp w3 res w' hTrk with
        ⟨-, rfl⟩ | ⟨-, htr, hw⟩
      · exact Or.inl (by rw [hfC.1, hfA.1])
      · refine Or.inr ⟨res.track, ?_, by simp [htr, newTrackRow, ← hart0]⟩
        rw [hw]
        dsimp only
        rw [hfC.1, hfA.1]
  · intro hIC hid
    have h0 : processComposer item.composer w2 = (none, w2) := by
      rw [hIC]
      exact processComposer_noId cd w2 hid
    rw [h0] at hCmp
    injection hCmp with hcmp0 hw3
    subst hw3
    constructor
    · rw [hfT.2.2.1, hfR.2.2.1, hfA.2.2.1]
    · rcases processTrack_ok_cases item alb art cmp w2 res w' hTrk with
        ⟨-, rfl⟩ | ⟨-, htr, hw⟩
      · exact Or.inl (by rw [hfR.1, hfA.1])
      · refine Or.inr ⟨res.track, ?_, by simp [htr, newTrackRow, ← hcmp0]⟩
        rw [hw]
        dsimp only
        rw [hfR.1, hfA.1]

/-- Witness for C9: the record `cItemNoIds` (album `_id` without `$oid`,
artist and composer without `_id`) stores nothing for its sub-objects and
its Track row has a `null` album reference. -/
theorem C9_no_extractable_id_never_stored_witness :
    processAlbum (some cAlbumNoId) world0 = (none, world0) ∧
    processArtist (some cArtistNoId) world0 = .ok (none, world0) ∧
    (cW9.db.albums = world0.db.albums ∧
      tracksNullRef world0 cW9 (fun t => t.album)) := by
  have h := C9_no_extractable_id_never_stored cAlbumNoId cArtistNoId
    blankComposerData cItemNoIds stats0 ⟨1, 0, 0⟩ world0 cW9
  exact ⟨h.1 (by decide), h.2.1 (by decide),
    (h.2.2.2 (by decide) rfl).1 rfl (by decide)⟩

/-! ## Claim C7: album sub-object without a title -/

/-- C7 — a record whose nested album sub-object lacks a title drops the
sub-object (no Album row is created, the state is untouched by
`processAlbum`); the record still yields a new Track row with a `null`
album reference and the loop proceeds to the next record. -/
theorem C7_missing_album_title_tolerated (item : Item) (ad : AlbumData)
    (st : Stats) (w : World)
    (hAlbum : item.album = some ad) (ht : truthy ad.title = false) :
    processAlbum item.album w = (none, w) ∧
    (isAd item = false →
     artistSaveOK item.artist = true →
     truthy item.track_artist = true → truthy item.title = true →
     findTrackById w.db.tracks item = none →
     findTrackByContent w.db.tracks item = none →
      ∃ w' : World,
        processItem item st w =
          .ok ({ st with tracksNew := st.tracksNew + 1 }, w') ∧
        w'.db.albums = w.db.albums ∧
        (∃ t, w'.db.tracks = w.db.tracks ++ [t] ∧ t.album = none) ∧
        (∀ rest, processItems (item :: rest) st w =
          processItems rest { st with tracksNew := st.tracksNew + 1 } w')) := by
  have hpa : processAlbum item.album w = (none, w) := by
    rw [hAlbum]
    exact processAlbum_noTitle ad w ht
  refine ⟨hpa, ?_⟩
  intro hAd hOK hta htt hf1 hf2
  obtain ⟨art, w2, hart⟩ := processArtist_ok_of item.artist w hOK
  have hfR := processArtist_ok_frame item.artist w art w2 hart
  have hfC := processComposer_frame item.composer w2
  have htr3 : (processComposer item.composer w2).2.db.tracks = w.db.tracks := by
    rw [hfC.1, hfR.1]
  have hins := processTrack_insert item none art
    (processComposer item.composer w2).1 (processComposer item.composer w2).2
    (by rw [htr3]; exact hf1) (by rw [htr3]; exact hf2) hta htt
  have hitem : processItem item st w =
      .ok ({ st with tracksNew := st.tracksNew + 1 },
        { (processComposer item.composer w2).2 with
          db := { (processComposer item.composer w2).2.db with
            tracks := (processComposer item.composer w2).2.db.tracks ++
              [newTrackRow item none art (processComposer item.composer w2).1
                (processComposer item.composer w2).2.db.nextId],
            nextId := (processComposer item.composer w2).2.db.nextId + 1 } }) := by
    simp only [processItem, hAd, Bool.false_eq_true, if_false, hpa]
    rw [hart]
    dsimp only
    rw [hins]
    rfl
  refine ⟨_, hitem, ?_, ?_, ?_⟩
  · dsimp only
    rw [hfC.2.1, hfR.2.1]
  · refine ⟨newTrackRow item none art (processComposer item.composer w2).1
      (processComposer item.composer w2).2.db.nextId, ?_, by simp [newTrackRow]⟩
    dsimp only
    rw [htr3]
  · intro rest
    exact processItems_cons_ok item rest st _ w _ hitem

/-- Witness for C7: the record `cItemNoTitle` (album sub-object `a9`
without a title) from an empty store. -/
theorem C7_missing_album_title_tolerated_witness :
    processAlbum cItemNoTitle.album world0 = (none, world0) ∧
    ∃ w' : World,
      processItem cItemNoTitle stats0 world0 =
        .ok ({ stats0 with tracksNew := stats0.tracksNew + 1 }, w') ∧
      w'.db.albums = world0.db.albums ∧
      (∃ t, w'.db.tracks = world0.db.tracks ++ [t] ∧ t.album = none) ∧
      (∀ rest, processItems (cItemNoTitle :: rest) stats0 world0 =
        processItems rest { stats0 with tracksNew := stats0.tracksNew + 1 } w') := by
  have h := C7_missing_album_title_tolerated cItemNoTitle cAlbumNoTitle
    stats0 world0 rfl (by decide)
  exact ⟨h.1, h.2 (by decide) (by decide) (by decide) (by decide)
    (by decide) (by decide)⟩

/-! ## Claim C8: bulk erase -/

/-- Counterexample for C8 as stated: two stores that differ exactly in
their Composer rows get identical `DELETE /all` responses, so the response
cannot contain the pre-erase count of all five collections — `getStats`
counts only four. -/
theorem C8_counterexample_composers_not_reported :
    (deleteAllHandler cDBwithComp).1 = (deleteAllHandler emptyDB).1 ∧
    cDBwithComp.composers.length ≠ emptyDB.composers.length := by
  refine ⟨rfl, ?_⟩
  decide

/-- C8 amended — `DELETE /all` empties all five collections and answers
with the pre-erase counts of the Track, Album, Artist and Ad collections
(the Composer count is not part of the response). -/
theorem C8_amended_bulk_erase (db : DB) :
    (deleteAllHandler db).1 =
      ⟨true, ⟨db.tracks.length, db.albums.length, db.artists.length,
        db.ads.length⟩⟩ ∧
    (deleteAllHandler db).2.tracks = [] ∧
    (deleteAllHandler db).2.albums = [] ∧
    (deleteAllHandler db).2.artists = [] ∧
    (deleteAllHandler db).2.composers = [] ∧
    (deleteAllHandler db).2.ads = [] :=
  ⟨rfl, rfl, rfl, rfl, rfl, rfl⟩

/-! ## Claim C5: ad passthrough -/

/-- Counterexample for C5 as stated: `cAdBanner` is classified as an Ad,
yet it is not persisted — its save rejects on the `ad_type` enum and the
whole run aborts, so a feed of one ad-shaped record yields no Ad row. -/
theorem C5_counterexample_invalid_ad_type_aborts :
    isAd cAdBanner = true ∧
    parseAndStore (.arr [cAdBanner]) world0 =
      .error ("Ad validation failed: ad_type is not in enum", world0) :=
  ⟨rfl, rfl⟩

/-- Every record of an all-ad feed with schema-valid ad kinds is saved as
a fresh row, bumping the counter, with no lookup and no other collection
touched. -/
theorem adsRun (items : List Item) (st : Stats) (w : World)
    (hall : ∀ i ∈ items, isAd i = true ∧ adTypeValid i.ad_type = true) :
    ∃ w', processItems items st w =
        .ok ({ st with ads := st.ads + items.length }, w') ∧
      w'.db.ads.length = w.db.ads.length + items.length ∧
      w'.db.tracks = w.db.tracks ∧ w'.db.albums = w.db.albums ∧
      w'.db.artists = w.db.artists ∧ w'.db.composers = w.db.composers := by
  induction items generalizing st w with
  | nil => exact ⟨w, by simp [processItems], by simp, rfl, rfl, rfl, rfl⟩
  | cons i rest ih =>
    obtain ⟨hAdi, hVi⟩ := hall i (by simp)
    have hstep : processItem i st w = .ok ({ st with ads := st.ads + 1 },
        { w with db := { w.db with
            ads := w.db.ads ++ [newAdRow i w.db.nextId],
            nextId := w.db.nextId + 1 } }) := by
      simp only [processItem, hAdi, if_true]
      rw [processAd_ok i w hVi]
    obtain ⟨w', hrun, hlen, ht, hal, har, hcm⟩ :=
      ih { st with ads := st.ads + 1 }
        { w with db := { w.db with
            ads := w.db.ads ++ [newAdRow i w.db.nextId],
            nextId := w.db.nextId + 1 } }
        (fun j hj => hall j (by simp [hj]))
    refine ⟨w', ?_, ?_, ht, hal, har, hcm⟩
    · rw [processItems_cons_ok i rest st _ w _ hstep, hrun]
      have : st.ads + 1 + rest.length = st.ads + (rest.length + 1) := by omega
      simp only [this, List.length_cons]
    · rw [hlen]
      simp only [List.length_append, List.length_cons, List.length_nil]
      omega

/-- C5 amended — Ad passthrough with no deduplication holds for ad-shaped
records whose ad kind passes the schema enum (absent, `paid` or `unpaid`):
a feed of M such records yields M fresh Ad rows and `adsProcessed = M`,
and re-ingesting the same feed doubles the total Ad row count.  (As
stated the claim fails: an ad-shaped record with any other ad kind aborts
the run, see the counterexample.) -/
theorem C5_amended_ad_passthrough (items : List Item) (w : World)
    (hall : ∀ i ∈ items, isAd i = true ∧ adTypeValid i.ad_type = true) :
    ∃ w1 w2,
      parseAndStore (.arr items) w =
        .ok ({ stats0 with ads := items.length }, w1) ∧
      w1.db.ads.length = w.db.ads.length + items.length ∧
      parseAndStore (.arr items) w1 =
        .ok ({ stats0 with ads := items.length }, w2) ∧
      w2.db.ads.length = w.db.ads.length + 2 * items.length := by
  obtain ⟨w1, h1, hlen1, -, -, -, -⟩ := adsRun items stats0 w hall
  obtain ⟨w2, h2, hlen2, -, -, -, -⟩ := adsRun items stats0 w1 hall
  have hz : ∀ n : Nat, ({ stats0 with ads := stats0.ads + n } : Stats) =
      { stats0 with ads := n } := by
    intro n
    simp [stats0]
  refine ⟨w1, w2, ?_, hlen1, ?_, ?_⟩
  · rw [show parseAndStore (.arr items) w = processItems items stats0 w from rfl,
      h1, hz]
  · rw [show parseAndStore (.arr items) w1 = processItems items stats0 w1 from rfl,
      h2, hz]
  · rw [hlen2, hlen1]
    omega

/-- Witness for the amended C5: two identical paid ads from an empty
store — two rows and `adsProcessed = 2` per run, four rows after two
runs. -/
theorem C5_amended_ad_passthrough_witness :
    ∃ w1 w2,
      parseAndStore (.arr [cAdPaid, cAdPaid]) world0 =
        .ok ({ stats0 with ads := [cAdPaid, cAdPaid].length }, w1) ∧
      w1.db.ads.length = world0.db.ads.length + [cAdPaid, cAdPaid].length ∧
      parseAndStore (.arr [cAdPaid, cAdPaid]) w1 =
        .ok ({ stats0 with ads := [cAdPaid, cAdPaid].length }, w2) ∧
      w2.db.ads.length = world0.db.ads.length + 2 * [cAdPaid, cAdPaid].length :=
  C5_amended_ad_passthrough [cAdPaid, cAdPaid] world0 (by decide)

/-! ## Claim C2: record failures and the run -/

/-- Counterexample for C2 as stated: a feed whose first record carries an
artist sub-object with an id but no display name does not get skipped —
the save rejection propagates, the run returns an error instead of run
statistics, and the second (well-formed) record is never processed. -/
theorem C2_counterexample_malformed_record_aborts :
    parseAndStore (.arr [cItemBadArtist, cItemByContent]) world0 =
      .error ("Artist validation failed: artistdisplay is required", world0) :=
  rfl

/-- The loop propagates the first record-level error. -/
theorem processItems_append_error (bad : Item) (rest pre : List Item)
    (st : Stats) (w : World) (st1 : Stats) (w1 : World) (e : String × World)
    (hpre : processItems pre st w = .ok (st1, w1))
    (hbad : processItem bad st1 w1 = .error e) :
    processItems (pre ++ bad :: rest) st w = .error e := by
  induction pre generalizing st w with
  | nil =>
    simp only [processItems, Except.ok.injEq, Prod.mk.injEq] at hpre
    obtain ⟨h1, h2⟩ := hpre
    subst h1
    subst h2
    simpa using processItems_cons_error bad rest st w e hbad
  | cons i pre' ih =>
    cases hi : processItem i st w with
    | error e0 =>
      rw [processItems_cons_error i pre' st w e0 hi] at hpre
      exact absurd hpre (by simp)
    | ok p =>
      rw [processItems_cons_ok i pre' st p.1 w p.2 (by rw [hi])] at hpre
      rw [List.cons_append,
        processItems_cons_ok i (pre' ++ bad :: rest) st p.1 w p.2 (by rw [hi])]
      exact ih p.1 p.2 hpre

/-- C2 amended — a malformed individual record is not skipped: the first
record whose processing throws aborts the run, `parseAndStore` propagates
that error to its caller, and the records after it are never processed
(the statistics object is never returned). -/
theorem C2_amended_record_failure_aborts_run (pre : List Item) (bad : Item)
    (rest : List Item) (w : World) (st1 : Stats) (w1 : World)
    (e : String × World)
    (hpre : processItems pre stats0 w = .ok (st1, w1))
    (hbad : processItem bad st1 w1 = .error e) :
    parseAndStore (.arr (pre ++ bad :: rest)) w = .error e :=
  processItems_append_error bad rest pre stats0 w st1 w1 e hpre hbad

/-- Witness for the amended C2: the malformed-artist record aborts the
run before the following well-formed record. -/
theorem C2_amended_record_failure_aborts_run_witness :
    parseAndStore (.arr ([] ++ cItemBadArtist :: [cItemByContent])) world0 =
      .error ("Artist validation failed: artistdisplay is required", world0) :=
  C2_amended_record_failure_aborts_run [] cItemBadArtist [cItemByContent]
    world0 stats0 world0
    ("Artist validation failed: artistdisplay is required", world0) rfl rfl

/-! ## Claim C6: the Album cached-image-path invariant -/

theorem albumImageOnlyUpd_rfl (a : AlbumRow) : albumImageOnlyUpd a a :=
  Or.inl rfl

theorem albumImageOnlyUpd_trans (a b c : AlbumRow)
    (h1 : albumImageOnlyUpd a b) (h2 : albumImageOnlyUpd b c) :
    albumImageOnlyUpd a c := by
  rcases h1 with rfl | ⟨p, rfl⟩
  · exact h2
  · rcases h2 with rfl | ⟨q, rfl⟩
    · exact Or.inr ⟨p, rfl⟩
    · exact Or.inr ⟨q, rfl⟩

theorem forall2_upd_refl (l : List AlbumRow) :
    List.Forall₂ albumImageOnlyUpd l l :=
  List.forall₂_same.mpr (fun a _ => albumImageOnlyUpd_rfl a)

theorem forall2_upd_trans {l1 l2 l3 : List AlbumRow}
    (h1 : List.Forall₂ albumImageOnlyUpd l1 l2)
    (h2 : List.Forall₂ albumImageOnlyUpd l2 l3) :
    List.Forall₂ albumImageOnlyUpd l1 l3 := by
  induction h1 generalizing l3 with
  | nil =>
    cases h2
    exact List.Forall₂.nil
  | cons hab htl ih =>
    cases h2 with
    | cons hbc htl2 =>
      exact List.Forall₂.cons (albumImageOnlyUpd_trans _ _ _ hab hbc) (ih htl2)

theorem updateAlbumImage_forall2 (aid : Nat) (p : String) (db : DB) :
    List.Forall₂ albumImageOnlyUpd db.albums (updateAlbumImage aid p db).albums := by
  unfold updateAlbumImage
  rw [List.forall₂_map_right_iff]
  refine List.forall₂_same.mpr (fun a _ => ?_)
  split
  · exact Or.inr ⟨p, rfl⟩
  · exact Or.inl rfl

/-- One download step changes the database only by possibly setting one
album's cached-image path. -/
theorem downloadImageNow_db (oracle : String → DlResult) (c : String)
    (aid : Option Nat) (pth : String) (w : World) :
    (downloadImageNow oracle c aid pth w).2.db = w.db ∨
    ∃ a p, (downloadImageNow oracle c aid pth w).2.db =
      updateAlbumImage a p w.db := by
  unfold downloadImageNow
  split
  · exact Or.inl rfl
  · split
    · exact Or.inl rfl
    · split
      · exact Or.inl rfl
      · split
        · exact Or.inl rfl
        · cases aid with
          | some a => exact Or.inr ⟨a, pth, rfl⟩
          | none => exact Or.inl rfl

theorem downloadImageNow_dbFrame (oracle : String → DlResult) (c : String)
    (aid : Option Nat) (pth : String) (w : World) :
    List.Forall₂ albumImageOnlyUpd w.db.albums
      (downloadImageNow oracle c aid pth w).2.db.albums ∧
    (downloadImageNow oracle c aid pth w).2.db.tracks = w.db.tracks ∧
    (downloadImageNow oracle c aid pth w).2.db.artists = w.db.artists ∧
    (downloadImageNow oracle c aid pth w).2.db.composers = w.db.composers ∧
    (downloadImageNow oracle c aid pth w).2.db.ads = w.db.ads ∧
    (downloadImageNow oracle c aid pth w).2.db.nextId = w.db.nextId := by
  rcases downloadImageNow_db oracle c aid pth w with h | ⟨a, p, h⟩ <;> rw [h]
  · exact ⟨forall2_upd_refl _, rfl, rfl, rfl, rfl, rfl⟩
  · exact ⟨updateAlbumImage_forall2 a p w.db, rfl, rfl, rfl, rfl, rfl⟩

theorem drainList_dbFrame (oracle : String → DlResult) (items : List QItem)
    (w : World) :
    List.Forall₂ albumImageOnlyUpd w.db.albums
      (drainList oracle items w).2.db.albums ∧
    (drainList oracle items w).2.db.tracks = w.db.tracks ∧
    (drainList oracle items w).2.db.artists = w.db.artists ∧
    (drainList oracle items w).2.db.composers = w.db.composers ∧
    (drainList oracle items w).2.db.ads = w.db.ads ∧
    (drainList oracle items w).2.db.nextId = w.db.nextId := by
  induction items generalizing w with
  | nil => exact ⟨forall2_upd_refl _, rfl, rfl, rfl, rfl, rfl⟩
  | cons item rest ih =>
    have hstep := downloadImageNow_dbFrame oracle item.cdcover item.albumId
      item.localPath { w with imageQueue := rest }
    have htail := ih (downloadImageNow oracle item.cdcover item.albumId
      item.localPath { w with imageQueue := rest }).2
    simp only [drainList]
    refine ⟨forall2_upd_trans hstep.1 htail.1, ?_, ?_, ?_, ?_, ?_⟩
    · rw [htail.2.1, hstep.2.1]
    · rw [htail.2.2.1, hstep.2.2.1]
    · rw [htail.2.2.2.1, hstep.2.2.2.1]
    · rw [htail.2.2.2.2.1, hstep.2.2.2.2.1]
    · rw [htail.2.2.2.2.2, hstep.2.2.2.2.2]

theorem processImageQueue_dbFrame (oracle : String → DlResult) (w : World) :
    List.Forall₂ albumImageOnlyUpd w.db.albums
      (processImageQueue oracle w).2.db.albums ∧
    (processImageQueue oracle w).2.db.tracks = w.db.tracks ∧
    (processImageQueue oracle w).2.db.artists = w.db.artists ∧
    (processImageQueue oracle w).2.db.composers = w.db.composers ∧
    (processImageQueue oracle w).2.db.ads = w.db.ads ∧
    (processImageQueue oracle w).2.db.nextId = w.db.nextId := by
  unfold processImageQueue
  split
  · exact ⟨forall2_upd_refl _, rfl, rfl, rfl, rfl, rfl⟩
  · exact drainList_dbFrame oracle w.imageQueue
      { w with imageQueue := [], isProcessingImages := true }

/-- On a failed download nothing in the database moves. -/
theorem downloadImageNow_fail_db (oracle : String → DlResult) (c : String)
    (aid : Option Nat) (pth : String) (w : World) (hf : oracle c = .fail) :
    (downloadImageNow oracle c aid pth w).2.db = w.db := by
  unfold downloadImageNow
  split
  · rfl
  · split
    · rfl
    · rw [hf]

/-- `processAd` on success leaves every non-Ad collection untouched. -/
theorem processAd_ok_shape (adData : Item) (w : World) (r : AdRow) (w' : World)
    (h : processAd adData w = .ok (r, w')) :
    w' = { w with db := { w.db with
      ads := w.db.ads ++ [r], nextId := w.db.nextId + 1 } } := by
  by_cases hv : adTypeValid adData.ad_type
  · rw [processAd_ok adData w hv] at h
    simp only [Except.ok.injEq, Prod.mk.injEq] at h
    rw [h.2.symm, h.1]
  · rw [processAd_invalid adData w (by simpa using hv)] at h
    exact absurd h (by simp)

/-- One loop iteration appends only fresh albums, all with a `null`
cached-image path; existing Album rows are carried over unmodified. -/
theorem processItem_albums (item : Item) (st : Stats) (w : World)
    (st' : Stats) (w' : World) (h : processItem item st w = .ok (st', w')) :
    ∃ newAlbums, w'.db.albums = w.db.albums ++ newAlbums ∧
      ∀ a ∈ newAlbums, a.localImage = none := by
  by_cases hAd : isAd item
  · simp only [processItem, hAd, if_true] at h
    rcases hpa : processAd item w with ⟨e⟩ | ⟨r, wd⟩
    · rw [hpa] at h
      simp at h
    · rw [hpa] at h
      simp only [Except.ok.injEq, Prod.mk.injEq] at h
      rw [← h.2, processAd_ok_shape item w r wd hpa]
      exact ⟨[], by simp, by simp⟩
  · obtain ⟨alb, wa, art, w2, cmp, w3, res, hAlb, hArt, hCmp, hTrk, -⟩ :=
      processItem_track_split item st w st' w' (by simpa using hAd) h
    have hfA := processAlbum_db_cases item.album w
    rw [hAlb] at hfA
    have hfR := processArtist_ok_frame item.artist wa art w2 hArt
    have hfC := processComposer_frame item.composer w2
    rw [hCmp] at hfC
    have hfT := processTrack_ok_frame item alb art cmp w3 res w' hTrk
    have hchain : w'.db.albums = wa.db.albums := by
      rw [hfT.1, hfC.2.1, hfR.2.1]
    rcases hfA with h0 | ⟨row, hnone, h0⟩
    · exact ⟨[], by rw [hchain, h0]; simp, by simp⟩
    · refine ⟨[row], by rw [hchain, h0], ?_⟩
      intro a ha
      simp only [List.mem_singleton] at ha
      rw [ha, hnone]

/-- A whole successful run appends only fresh albums with `null`
cached-image paths; it never modifies or removes an existing Album row. -/
theorem processItems_albums (items : List Item) (st : Stats) (w : World)
    (st' : Stats) (w' : World)
    (h : processItems items st w = .ok (st', w')) :
    ∃ newAlbums, w'.db.albums = w.db.albums ++ newAlbums ∧
      ∀ a ∈ newAlbums, a.localImage = none := by
  induction items generalizing st w with
  | nil =>
    simp only [processItems, Except.ok.injEq, Prod.mk.injEq] at h
    rw [← h.2]
    exact ⟨[], by simp, by simp⟩
  | cons i rest ih =>
    cases hi : processItem i st w with
    | error e =>
      rw [processItems_cons_error i rest st w e hi] at h
      exact absurd h (by simp)
    | ok p =>
      rw [processItems_cons_ok i rest st p.1 w p.2 (by rw [hi])] at h
      obtain ⟨n1, hn1, hz1⟩ := processItem_albums i st w p.1 p.2 (by rw [hi])
      obtain ⟨n2, hn2, hz2⟩ := ih p.1 p.2 h
      refine ⟨n1 ++ n2, ?_, ?_⟩
      · rw [hn2, hn1, List.append_assoc]
      · intro a ha
        rcases List.mem_append.mp ha with ha | ha
        · exact hz1 a ha
        · exact hz2 a ha

/-- C6 — Album cached-image-path invariant: a run of the ingestion
pipeline creates every new Album row with a `null` cached-image path and
carries existing Album rows over unmodified; the drain worker mutates the
database only by setting album cached-image paths (never clearing one,
never touching any other collection or row field), and a failed download
changes nothing. -/
theorem C6_album_cached_image_invariant (payload : Payload) (w : World)
    (st' : Stats) (w' : World) (oracle : String → DlResult) (c : String)
    (aid : Option Nat) (p : String) (wd : World) :
    (parseAndStore payload w = .ok (st', w') →
      ∃ newAlbums, w'.db.albums = w.db.albums ++ newAlbums ∧
        ∀ a ∈ newAlbums, a.localImage = none) ∧
    (List.Forall₂ albumImageOnlyUpd wd.db.albums
        (processImageQueue oracle wd).2.db.albums ∧
      (processImageQueue oracle wd).2.db.tracks = wd.db.tracks ∧
      (processImageQueue oracle wd).2.db.artists = wd.db.artists ∧
      (processImageQueue oracle wd).2.db.composers = wd.db.composers ∧
      (processImageQueue oracle wd).2.db.ads = wd.db.ads ∧
      (processImageQueue oracle wd).2.db.nextId = wd.db.nextId) ∧
    (oracle c = .fail →
      (downloadImageNow oracle c aid p wd).2.db = wd.db) := by
  refine ⟨?_, processImageQueue_dbFrame oracle wd,
    downloadImageNow_fail_db oracle c aid p wd⟩
  intro h
  cases payload with
  | nonArray => exact absurd h (by simp [parseAndStore])
  | arr items => exact processItems_albums items stats0 w st' w' h

/-- Witness for C6: ingesting `cItemFull` creates its album with a `null`
cached-image path, and a failing download against the resulting state
leaves the database untouched. -/
theorem C6_album_cached_image_invariant_witness :
    (∃ newAlbums, cWFull.db.albums = world0.db.albums ++ newAlbums ∧
      ∀ a ∈ newAlbums, a.localImage = none) ∧
    (downloadImageNow (fun _ => DlResult.fail) "x" none "imgs/x" cWFull).2.db =
      cWFull.db := by
  have h := C6_album_cached_image_invariant (.arr [cItemFull]) world0
    ⟨1, 0, 0⟩ cWFull (fun _ => DlResult.fail) "x" none "imgs/x" cWFull
  exact ⟨h.1 rfl, h.2.2 rfl⟩

/-! ## Claim C3: lemmas for the idempotence argument -/

theorem find?_isSome_append {α : Type} (p : α → Bool) (l s : List α)
    (h : (l.find? p).isSome) : ((l ++ s).find? p).isSome := by
  rw [List.find?_isSome] at h ⊢
  obtain ⟨x, hx, hpx⟩ := h
  exact ⟨x, List.mem_append_left s hx, hpx⟩

/-- A fingerprint query always matches the row stored from the same
record. -/
theorem fieldMatch_self (q : Option String) : fieldMatch q q = true := by
  cases q <;> simp [fieldMatch]

theorem storedFacts_mono (db db' : DB) (item : Item) (hg : dbGrows db db')
    (h : storedFacts db item) : storedFacts db' item := by
  obtain ⟨⟨s1, h1⟩, ⟨s2, h2⟩, ⟨s3, h3⟩, ⟨s4, h4⟩⟩ := hg
  obtain ⟨f1, f2, f3, f4, f5⟩ := h
  refine ⟨?_, ?_, ?_, ?_, ?_⟩
  · intro oid hoid
    rw [h1]
    exact find?_isSome_append _ _ _ (f1 oid hoid)
  · intro hoid
    rw [show findTrackByContent db'.tracks item =
      (db.tracks ++ s1).find? (fun t =>
        fieldMatch item.track_artist t.track_artist &&
        fieldMatch item.title t.title && fieldMatch item.fn t.fn) from by
        rw [findTrackByContent, h1]]
    exact find?_isSome_append _ _ _ (f2 hoid)
  · intro ad oid had hid ht
    rw [show findAlbumByOriginalId db'.albums oid =
      (db.albums ++ s2).find? (fun a => a.originalId == some oid) from by
        rw [findAlbumByOriginalId, h2]]
    exact find?_isSome_append _ _ _ (f3 ad oid had hid ht)
  · intro rd oid hrd hid
    rw [h3]
    exact find?_isSome_append _ _ _ (f4 rd oid hrd hid)
  · intro cd oid hcd hid
    rw [h4]
    exact find?_isSome_append _ _ _ (f5 cd oid hcd hid)

/-- With its album already stored (or not storable), `processAlbum`
returns without touching the database. -/
theorem processAlbum_of_stored (d : Option AlbumData) (w : World)
    (h : ∀ ad oid, d = some ad → extractId ad._id = some oid →
      truthy ad.title = true → (findAlbumByOriginalId w.db.albums oid).isSome) :
    ∃ alb wq, processAlbum d w = (alb, wq) ∧ wq.db = w.db := by
  cases d with
  | none => exact ⟨none, w, rfl, rfl⟩
  | some ad =>
    cases hid : extractId ad._id with
    | none => exact ⟨none, w, processAlbum_noId ad w hid, rfl⟩
    | some oid =>
      by_cases ht : truthy ad.title
      · obtain ⟨row, hrow⟩ := Option.isSome_iff_exists.mp (h ad oid rfl hid ht)
        refine ⟨some row, _, processAlbum_found ad w oid row hid ht hrow, ?_⟩
        dsimp only
        split
        · exact (queueImageDownload_frame _ _ _).1
        · rfl
      · exact ⟨none, w, processAlbum_noTitle ad w (by simpa using ht), rfl⟩

/-- With its artist already stored (or not storable), `processArtist`
returns with the state untouched. -/
theorem processArtist_of_stored (d : Option ArtistData) (w : World)
    (h : ∀ rd oid, d = some rd → extractId rd._id = some oid →
      (w.db.artists.find? (fun a => a.originalId == some oid)).isSome) :
    ∃ art, processArtist d w = .ok (art, w) := by
  cases d with
  | none => exact ⟨none, rfl⟩
  | some rd =>
    cases hid : extractId rd._id with
    | none => exact ⟨none, processArtist_noId rd w hid⟩
    | some oid =>
      obtain ⟨row, hrow⟩ := Option.isSome_iff_exists.mp (h rd oid rfl hid)
      exact ⟨some row, processArtist_found rd w oid row hid hrow⟩

/-- With its composer already stored (or not storable), `processComposer`
returns with the state untouched. -/
theorem processComposer_of_stored (d : Option ComposerData) (w : World)
    (h : ∀ cd oid, d = some cd → extractId cd._id = some oid →
      (w.db.composers.find? (fun c => c.originalId == some oid)).isSome) :
    ∃ cmp, processComposer d w = (cmp, w) := by
  cases d with
  | none => exact ⟨none, rfl⟩
  | some cd =>
    cases hid : extractId cd._id with
    | none => exact ⟨none, processComposer_noId cd w hid⟩
    | some oid =>
      obtain ⟨row, hrow⟩ := Option.isSome_iff_exists.mp (h cd oid rfl hid)
      exact ⟨some row, processComposer_found cd w oid row hid hrow⟩

/-- With its track already stored, `processTrack` returns it as existing
with the state untouched. -/
theorem processTrack_of_stored (item : Item) (alb : Option AlbumRow)
    (art : Option ArtistRow) (cmp : Option ComposerRow) (w : World)
    (h1 : ∀ oid, trackOriginalId item = some oid →
      (w.db.tracks.find? (fun t => t.originalId == some oid)).isSome)
    (h2 : trackOriginalId item = none →
      (findTrackByContent w.db.tracks item).isSome) :
    ∃ t, processTrack item alb art cmp w = .ok (⟨t, false⟩, w) := by
  cases hoid : trackOriginalId item with
  | some oid =>
    obtain ⟨t, ht⟩ := Option.isSome_iff_exists.mp (h1 oid hoid)
    have hfind : findTrackById w.db.tracks item = some t := by
      unfold findTrackById
      rw [hoid]
      exact ht
    exact ⟨t, processTrack_hitId item alb art cmp w t hfind⟩
  | none =>
    obtain ⟨t, ht⟩ := Option.isSome_iff_exists.mp (h2 hoid)
    have hbyid : findTrackById w.db.tracks item = none := by
      unfold findTrackById
      rw [hoid]
    exact ⟨t, processTrack_hitContent item alb art cmp w t hbyid ht⟩

/-- One loop iteration over a record whose entities are all already
stored: counted as existing, database unchanged. -/
theorem processItem_existing (item : Item) (st : Stats) (w : World)
    (hOK : recordOK item = true) (hst : storedFacts w.db item) :
    ∃ w', processItem item st w =
        .ok ({ st with tracksExisting := st.tracksExisting + 1 }, w') ∧
      w'.db = w.db := by
  have hAd : isAd item = false := by
    simp only [recordOK, Bool.and_eq_true, Bool.not_eq_eq_eq_not,
      Bool.not_true] at hOK
    exact hOK.1.1.1
  obtain ⟨f1, f2, f3, f4, f5⟩ := hst
  obtain ⟨alb, wq, hA, hwq⟩ := processAlbum_of_stored item.album w f3
  obtain ⟨art, hR⟩ := processArtist_of_stored item.artist wq
    (fun rd oid hrd hid => by rw [hwq]; exact f4 rd oid hrd hid)
  obtain ⟨cmp, hC⟩ := processComposer_of_stored item.composer wq
    (fun cd oid hcd hid => by rw [hwq]; exact f5 cd oid hcd hid)
  obtain ⟨t, hT⟩ := processTrack_of_stored item alb art cmp wq
    (fun oid hoid => by rw [hwq]; exact f1 oid hoid)
    (fun hoid => by
      rw [show findTrackByContent wq.db.tracks item =
        findTrackByContent w.db.tracks item from by rw [hwq]]
      exact f2 hoid)
  refine ⟨wq, ?_, hwq⟩
  simp only [processItem, hAd, Bool.false_eq_true, if_false, hA]
  rw [hR]
  dsimp only
  rw [hC]
  dsimp only
  rw [hT]
  rfl

/-- The second run over an already-ingested feed: every record counts as
existing and the database does not change at all. -/
theorem run2_aux (items : List Item) (st : Stats) (w : World)
    (hOK : ∀ i ∈ items, recordOK i = true)
    (hst : ∀ i ∈ items, storedFacts w.db i) :
    ∃ w', processItems items st w =
        .ok ({ st with
          tracksExisting := st.tracksExisting + items.length }, w') ∧
      w'.db = w.db := by
  induction items generalizing st w with
  | nil => exact ⟨w, by simp [processItems], rfl⟩
  | cons i rest ih =>
    obtain ⟨w1, hstep, hdb⟩ := processItem_existing i st w
      (hOK i (by simp)) (hst i (by simp))
    obtain ⟨w', hrun, hdb'⟩ := ih { st with
        tracksExisting := st.tracksExisting + 1 } w1
      (fun j hj => hOK j (by simp [hj]))
      (fun j hj => by rw [hdb]; exact hst j (by simp [hj]))
    refine ⟨w', ?_, by rw [hdb', hdb]⟩
    rw [processItems_cons_ok i rest st _ w _ hstep, hrun]
    have hn : st.tracksExisting + 1 + rest.length =
        st.tracksExisting + (rest.length + 1) := by omega
    simp only [List.length_cons]
    rw [hn]

/-- `processAlbum` establishes the album lookup fact for its record while
leaving every other collection untouched. -/
theorem processAlbum_establishes (d : Option AlbumData) (w : World) :
    ∃ alb wa, processAlbum d w = (alb, wa) ∧
      wa.db.tracks = w.db.tracks ∧ wa.db.artists = w.db.artists ∧
      wa.db.composers = w.db.composers ∧
      (∃ s, wa.db.albums = w.db.albums ++ s) ∧
      (∀ ad oid, d = some ad → extractId ad._id = some oid →
        truthy ad.title = true →
        (findAlbumByOriginalId wa.db.albums oid).isSome) := by
  refine ⟨(processAlbum d w).1, (processAlbum d w).2, rfl,
    (processAlbum_frame d w).1, (processAlbum_frame d w).2.1,
    (processAlbum_frame d w).2.2.1, ?_, ?_⟩
  · rcases processAlbum_db_cases d w with h | ⟨row, -, h⟩
    · exact ⟨[], by rw [h]; simp⟩
    · exact ⟨[row], by rw [h]⟩
  · intro ad oid hd hid ht
    subst hd
    cases hfind : findAlbumByOriginalId w.db.albums oid with
    | some row =>
      rw [processAlbum_found ad w oid row hid ht hfind]
      dsimp only
      have : (if truthy ad.cdcover && !truthy row.localImage
          then queueImageDownload ad.cdcover (some row.id) w
          else w).db.albums = w.db.albums := by
        split
        · rw [(queueImageDownload_frame _ _ _).1]
        · rfl
      rw [show findAlbumByOriginalId (if truthy ad.cdcover && !truthy row.localImage
          then queueImageDownload ad.cdcover (some row.id) w
          else w).db.albums oid = findAlbumByOriginalId w.db.albums oid from by
        rw [this]]
      rw [hfind]
      rfl
    | none =>
      have h2 := (processAlbum_create ad w oid hid ht hfind).2
      rw [show findAlbumByOriginalId (processAlbum (some ad) w).2.db.albums oid =
          (w.db.albums ++ [newAlbumRow ad oid w.db.nextId]).find?
            (fun a => a.originalId == some oid) from by
        rw [findAlbumByOriginalId, h2]]
      rw [List.find?_isSome]
      exact ⟨newAlbumRow ad oid w.db.nextId, List.mem_append_right _ (by simp),
        by simp [newAlbumRow]⟩

/-- `processArtist` (when it does not throw) establishes the artist lookup
fact for its record while leaving every other collection untouched. -/
theorem processArtist_establishes (d : Option ArtistData) (w : World)
    (hOK : artistSaveOK d = true) :
    ∃ art wr, processArtist d w = .ok (art, wr) ∧
      wr.db.tracks = w.db.tracks ∧ wr.db.albums = w.db.albums ∧
      wr.db.composers = w.db.composers ∧
      (∃ s, wr.db.artists = w.db.artists ++ s) ∧
      (∀ rd oid, d = some rd → extractId rd._id = some oid →
        (wr.db.artists.find? (fun a => a.originalId == some oid)).isSome) := by
  cases d with
  | none =>
    exact ⟨none, w, rfl, rfl, rfl, rfl, ⟨[], by simp⟩,
      fun rd oid hd => by cases hd⟩
  | some rd =>
    cases hid : extractId rd._id with
    | none =>
      refine ⟨none, w, processArtist_noId rd w hid, rfl, rfl, rfl,
        ⟨[], by simp⟩, ?_⟩
      intro rd' oid hd hid'
      cases hd
      rw [hid] at hid'
      cases hid'
    | some oid =>
      cases hfind : w.db.artists.find? (fun a => a.originalId == some oid) with
      | some row =>
        refine ⟨some row, w, processArtist_found rd w oid row hid hfind,
          rfl, rfl, rfl, ⟨[], by simp⟩, ?_⟩
        intro rd' oid' hd hid'
        cases hd
        rw [hid] at hid'
        cases hid'
        rw [hfind]
        rfl
      | none =>
        have hd : truthy rd.artistdisplay = true := by
          simp only [artistSaveOK, hid] at hOK
          simpa using hOK
        refine ⟨some (newArtistRow rd oid w.db.nextId), _,
          processArtist_create rd w oid hid hfind hd, rfl, rfl, rfl,
          ⟨[newArtistRow rd oid w.db.nextId], rfl⟩, ?_⟩
        intro rd' oid' hdq hid'
        cases hdq
        rw [hid] at hid'
        cases hid'
        rw [List.find?_isSome]
        exact ⟨newArtistRow rd oid w.db.nextId,
          List.mem_append_right _ (by simp), by simp [newArtistRow]⟩

/-- `processComposer` establishes the composer lookup fact for its record
while leaving every other collection untouched. -/
theorem processComposer_establishes (d : Option ComposerData) (w : World) :
    ∃ cmp wc, processComposer d w = (cmp, wc) ∧
      wc.db.tracks = w.db.tracks ∧ wc.db.albums = w.db.albums ∧
      wc.db.artists = w.db.artists ∧
      (∃ s, wc.db.composers = w.db.composers ++ s) ∧
      (∀ cd oid, d = some cd → extractId cd._id = some oid →
        (wc.db.composers.find? (fun c => c.originalId == some oid)).isSome) := by
  cases d with
  | none =>
    exact ⟨none, w, rfl, rfl, rfl, rfl, ⟨[], by simp⟩,
      fun cd oid hd => by cases hd⟩
  | some cd =>
    cases hid : extractId cd._id with
    | none =>
      refine ⟨none, w, processComposer_noId cd w hid, rfl, rfl, rfl,
        ⟨[], by simp⟩, ?_⟩
      intro cd' oid hd hid'
      cases hd
      rw [hid] at hid'
      cases hid'
    | some oid =>
      cases hfind : w.db.composers.find? (fun c => c.originalId == some oid) with
      | some row =>
        refine ⟨some row, w, processComposer_found cd w oid row hid hfind,
          rfl, rfl, rfl, ⟨[], by simp⟩, ?_⟩
        intro cd' oid' hd hid'
        cases hd
        rw [hid] at hid'
        cases hid'
        rw [hfind]
        rfl
      | none =>
        refine ⟨some (newComposerRow cd oid w.db.nextId), _,
          processComposer_create cd w oid hid hfind, rfl, rfl, rfl,
          ⟨[newComposerRow cd oid w.db.nextId], rfl⟩, ?_⟩
        intro cd' oid' hdq hid'
        cases hdq
        rw [hid] at hid'
        cases hid'
        rw [List.find?_isSome]
        exact ⟨newComposerRow cd oid w.db.nextId,
          List.mem_append_right _ (by simp), by simp [newComposerRow]⟩

/-- One loop iteration over a record the store has never seen: counted as
new, one track row appended carrying the record's identity, collections
only grown, and all the record's lookup facts established. -/
theorem processItem_fresh (item : Item) (st : Stats) (w : World)
    (hOK : recordOK item = true)
    (hf1 : findTrackById w.db.tracks item = none)
    (hf2 : findTrackByContent w.db.tracks item = none) :
    ∃ w', processItem item st w =
        .ok ({ st with tracksNew := st.tracksNew + 1 }, w') ∧
      dbGrows w.db w'.db ∧
      (∃ t, w'.db.tracks = w.db.tracks ++ [t] ∧
        t.originalId = trackOriginalId item ∧
        t.track_artist = item.track_artist ∧ t.title = item.title ∧
        t.fn = item.fn) ∧
      storedFacts w'.db item := by
  have hparts : isAd item = false ∧ truthy item.track_artist = true ∧
      truthy item.title = true ∧ artistSaveOK item.artist = true := by
    simp only [recordOK, Bool.and_eq_true, Bool.not_eq_eq_eq_not,
      Bool.not_true] at hOK
    exact ⟨hOK.1.1.1, hOK.1.1.2, hOK.1.2, hOK.2⟩
  obtain ⟨hAd, hta, htt, hartOK⟩ := hparts
  obtain ⟨alb, wa, hA, hAtr, hAar, hAcm, ⟨sA, hAal⟩, hAest⟩ :=
    processAlbum_establishes item.album w
  obtain ⟨art, wr, hR, hRtr, hRal, hRcm, ⟨sR, hRar⟩, hRest⟩ :=
    processArtist_establishes item.artist wa hartOK
  obtain ⟨cmp, wc, hC, hCtr, hCal, hCar, ⟨sC, hCcm⟩, hCest⟩ :=
    processComposer_establishes item.composer wr
  have htracks : wc.db.tracks = w.db.tracks := by
    rw [hCtr, hRtr, hAtr]
  have hf1' : findTrackById wc.db.tracks item = none := by
    rw [htracks]
    exact hf1
  have hf2' : findTrackByContent wc.db.tracks item = none := by
    rw [show findTrackByContent wc.db.tracks item =
      findTrackByContent w.db.tracks item from by rw [htracks]]
    exact hf2
  have hT := processTrack_insert item alb art cmp wc hf1' hf2' hta htt
  refine ⟨{ wc with db := { wc.db with
      tracks := wc.db.tracks ++ [newTrackRow item alb art cmp wc.db.nextId],
      nextId := wc.db.nextId + 1 } }, ?_, ?_, ?_, ?_⟩
  · simp only [processItem, hAd, Bool.false_eq_true, if_false, hA]
    rw [hR]
    dsimp only
    rw [hC]
    dsimp only
    rw [hT]
    rfl
  · refine ⟨⟨[newTrackRow item alb art cmp wc.db.nextId], by
      dsimp only; rw [htracks]⟩, ⟨sA, by dsimp only; rw [hCal, hRal, hAal]⟩,
      ⟨sR, by dsimp only; rw [hCar, hRar, hAar]⟩,
      ⟨sC, by dsimp only; rw [hCcm, hRcm, hAcm]⟩⟩
  · exact ⟨newTrackRow item alb art cmp wc.db.nextId,
      by dsimp only; rw [htracks], by simp [newTrackRow], by simp [newTrackRow],
      by simp [newTrackRow], by simp [newTrackRow]⟩
  · refine ⟨?_, ?_, ?_, ?_, ?_⟩
    · intro oid hoid
      dsimp only
      rw [List.find?_isSome]
      exact ⟨newTrackRow item alb art cmp wc.db.nextId,
        List.mem_append_right _ (by simp),
        by simp [newTrackRow, hoid]⟩
    · intro hoid
      dsimp only
      rw [show findTrackByContent
          (wc.db.tracks ++ [newTrackRow item alb art cmp wc.db.nextId]) item =
        (wc.db.tracks ++ [newTrackRow item alb art cmp wc.db.nextId]).find?
          (fun t => fieldMatch item.track_artist t.track_artist &&
            fieldMatch item.title t.title && fieldMatch item.fn t.fn) from rfl]
      rw [List.find?_isSome]
      refine ⟨newTrackRow item alb art cmp wc.db.nextId,
        List.mem_append_right _ (by simp), ?_⟩
      simp only [newTrackRow, fieldMatch_self]
      rfl
    · intro ad oid had hid ht
      dsimp only
      have := hAest ad oid had hid ht
      rw [show findAlbumByOriginalId wc.db.albums oid =
        findAlbumByOriginalId wa.db.albums oid from by rw [hCal, hRal]]
      exact this
    · intro rd oid hrd hid
      dsimp only
      rw [hCar]
      exact hRest rd oid hrd hid
    · intro cd oid hcd hid
      dsimp only
      exact hCest cd oid hcd hid

/-- The first run over a pairwise-distinct feed from any state whose
tracks all come from the processed prefix: every remaining record is new,
and afterwards every record's lookup facts hold. -/
theorem run1_aux (items : List Item) (processed : List Item) (st : Stats)
    (w : World)
    (hOK : ∀ i ∈ items, recordOK i = true)
    (hpw : List.Pairwise distinctRecords (processed ++ items))
    (hfrom : tracksFrom w.db processed)
    (hstored : ∀ r ∈ processed, storedFacts w.db r) :
    ∃ w', processItems items st w =
        .ok ({ st with tracksNew := st.tracksNew + items.length }, w') ∧
      tracksFrom w'.db (processed ++ items) ∧
      ∀ r ∈ processed ++ items, storedFacts w'.db r := by
  induction items generalizing processed st w with
  | nil =>
    refine ⟨w, by simp [processItems], ?_, ?_⟩
    · simpa using hfrom
    · simpa using hstored
  | cons i rest ih =>
    have hdist : ∀ r ∈ processed, distinctRecords r i := by
      intro r hr
      exact (List.pairwise_append.mp hpw).2.2 r hr i (by simp)
    have hf1 : findTrackById w.db.tracks i = none := by
      unfold findTrackById
      cases hoid : trackOriginalId i with
      | none => rfl
      | some oid =>
        rw [List.find?_eq_none]
        intro t ht hbeq
        have hto : t.originalId = some oid := by simpa using hbeq
        obtain ⟨r, hr, h1, -, -, -⟩ := hfrom t ht
        have hcl := (hdist r hr).1
        have hro : trackOriginalId r = some oid := h1.symm.trans hto
        rw [idClash, hro, hoid] at hcl
        simp at hcl
    have hf2 : findTrackByContent w.db.tracks i = none := by
      unfold findTrackByContent
      rw [List.find?_eq_none]
      intro t ht hbeq
      obtain ⟨r, hr, -, h2, h3, h4⟩ := hfrom t ht
      rw [h2, h3, h4] at hbeq
      have hch : contentHit i r = true := hbeq
      rw [(hdist r hr).2.2] at hch
      cases hch
    obtain ⟨w1, hstep, hgrow, ⟨t, htr, hto, hta, hti, htf⟩, hsi⟩ :=
      processItem_fresh i st w (hOK i (by simp)) hf1 hf2
    have hfrom1 : tracksFrom w1.db (processed ++ [i]) := by
      intro t' ht'
      rw [htr] at ht'
      rcases List.mem_append.mp ht' with h | h
      · obtain ⟨r, hr, hfacts⟩ := hfrom t' h
        exact ⟨r, List.mem_append_left _ hr, hfacts⟩
      · rw [List.mem_singleton] at h
        subst h
        exact ⟨i, List.mem_append_right _ (by simp), hto, hta, hti, htf⟩
    have hstored1 : ∀ r ∈ processed ++ [i], storedFacts w1.db r := by
      intro r hr
      rcases List.mem_append.mp hr with h | h
      · exact storedFacts_mono w.db w1.db r hgrow (hstored r h)
      · rw [List.mem_singleton] at h
        subst h
        exact hsi
    have hpw' : List.Pairwise distinctRecords ((processed ++ [i]) ++ rest) := by
      rw [List.append_assoc]
      simpa using hpw
    obtain ⟨w', hrun, hfrom', hstored'⟩ := ih (processed ++ [i])
      { st with tracksNew := st.tracksNew + 1 } w1
      (fun j hj => hOK j (by simp [hj])) hpw' hfrom1 hstored1
    have hlist : processed ++ i :: rest = (processed ++ [i]) ++ rest := by
      simp
    refine ⟨w', ?_, ?_, ?_⟩
    · rw [processItems_cons_ok i rest st _ w _ hstep, hrun]
      have hn : st.tracksNew + 1 + rest.length =
          st.tracksNew + (rest.length + 1) := by omega
      simp only [List.length_cons]
      rw [hn]
    · rw [hlist]
      exact hfrom'
    · rw [hlist]
      exact hstored'

/-- C3 — ingestion is idempotent over a fixed feed of pairwise-distinct
well-formed track records: from an empty store the first run reports all
records as new, the second run reports all of them as existing, and the
second run adds no row to any collection (the whole database is
unchanged). -/
theorem C3_ingestion_idempotent (items : List Item) (w : World)
    (hempty : w.db = emptyDB)
    (hOK : ∀ i ∈ items, recordOK i = true)
    (hpw : List.Pairwise distinctRecords items) :
    ∃ w1 w2,
      parseAndStore (.arr items) w =
        .ok ({ stats0 with tracksNew := items.length }, w1) ∧
      parseAndStore (.arr items) w1 =
        .ok ({ stats0 with tracksExisting := items.length }, w2) ∧
      w2.db = w1.db := by
  obtain ⟨w1, h1, hfrom1, hstored1⟩ := run1_aux items [] stats0 w hOK
    (by simpa using hpw)
    (by intro t ht; rw [hempty] at ht; exact absurd ht (by simp [emptyDB]))
    (by intro r hr; exact absurd hr (by simp))
  obtain ⟨w2, h2, hdb2⟩ := run2_aux items stats0 w1 hOK
    (fun i hi => hstored1 i (by simpa using hi))
  refine ⟨w1, w2, ?_, ?_, hdb2⟩
  · rw [show parseAndStore (.arr items) w = processItems items stats0 w
      from rfl, h1]
    simp [stats0]
  · rw [show parseAndStore (.arr items) w1 = processItems items stats0 w1
      from rfl, h2]
    simp [stats0]

/-- Witness for C3: the two-record feed `[cItemFull, cItemX2]` from an
empty store — two new on the first run, two existing and an unchanged
database on the second. -/
theorem C3_ingestion_idempotent_witness :
    ∃ w1 w2,
      parseAndStore (.arr [cItemFull, cItemX2]) world0 =
        .ok ({ stats0 with tracksNew := [cItemFull, cItemX2].length }, w1) ∧
      parseAndStore (.arr [cItemFull, cItemX2]) w1 =
        .ok ({ stats0 with
          tracksExisting := [cItemFull, cItemX2].length }, w2) ∧
      w2.db = w1.db :=
  C3_ingestion_idempotent [cItemFull, cItemX2] world0 rfl (by decide)
    (by
      refine List.Pairwise.cons ?_ (List.pairwise_singleton _ _)
      intro b hb
      rw [List.mem_singleton] at hb
      subst hb
      decide)

/-- Witness for C4: enqueueing `/covers/x/y.jpg` twice from a fresh state
leaves one pending entry, and draining attempts it once. -/
theorem C4_fetch_queue_at_most_once_witness :
    (queueImageDownload (some "/covers/x/y.jpg") (some 3)
      (queueImageDownload (some "/covers/x/y.jpg") (some 2)
        world0)).imageQueue.countP
      (fun i => i.cdcover == "/covers/x/y.jpg") = 1 ∧
    ((processImageQueue (fun _ => DlResult.fail)
        (queueImageDownload (some "/covers/x/y.jpg") (some 3)
          (queueImageDownload (some "/covers/x/y.jpg") (some 2)
            world0))).1.countP
      (fun i => i.cdcover == "/covers/x/y.jpg")) = 1 :=
  (C4_fetch_queue_at_most_once (some "/covers/x/y.jpg") (some 1) (some 2)
    (some 3) "/covers/x/y.jpg" world0 (fun _ => DlResult.fail)).2.2.2.2
    (by decide) rfl rfl rfl

/-- Witness for C10: with `imgs/x_y.jpg` already cached, enqueueing its
cover reference changes nothing. -/
theorem C10_cached_asset_enqueue_noop_witness :
    queueImageDownload (some "/covers/x/y.jpg") (some 1) cWDisk = cWDisk ∧
    (queueImageDownload (some "/covers/x/y.jpg") (some 1) cWDisk).db =
      cWDisk.db :=
  ⟨(C10_cached_asset_enqueue_noop (some "/covers/x/y.jpg") (some 1)
      cWDisk).1 (by decide),
   (C10_cached_asset_enqueue_noop (some "/covers/x/y.jpg") (some 1)
      cWDisk).2⟩

end Accu
